import Mathlib

/-!
Shallow embedding of the SDS parser (ocr_service/parse_sds.py) of the
chemfetch-backend repository.

Strings are modelled as lists of characters.  Python regular-expression
searches are modelled by handwritten matchers that follow the regex
left-to-right regex-engine, leftmost-match behaviour (including the relevant
backtracking order) for the concrete patterns used by the parser.  ASCII
case folding models Python case folding for the ASCII texts concerned;
whitespace is the ASCII whitespace set matched by the Python regex class
for the texts concerned.  Machine floats only ever carry the exact
confidence constants 0.0, 0.2, 0.5, 0.6, 0.8, 0.9, 1.0, so they are
modelled as rationals.
-/

/-! ## Character utilities -/

def lowerC (c : Char) : Char :=
  if 65 ≤ c.toNat ∧ c.toNat ≤ 90 then Char.ofNat (c.toNat + 32) else c

def upperC (c : Char) : Char :=
  if 97 ≤ c.toNat ∧ c.toNat ≤ 122 then Char.ofNat (c.toNat - 32) else c

def isWS (c : Char) : Bool :=
  c = ' ' || c = '\t' || c = '\n' || c = '\r' || c = '\x0b' || c = '\x0c'

def isDigitC (c : Char) : Bool :=
  48 ≤ c.toNat && c.toNat ≤ 57

def isAlphaC (c : Char) : Bool :=
  (65 ≤ c.toNat && c.toNat ≤ 90) || (97 ≤ c.toNat && c.toNat ≤ 122)

def isWordC (c : Char) : Bool :=
  isAlphaC c || isDigitC c || c = '_'

def digVal (c : Char) : Nat := c.toNat - 48

def pyLower (cs : List Char) : List Char := cs.map lowerC

def pyUpper (cs : List Char) : List Char := cs.map upperC

/-- Leading whitespace skipped (greedy, as in a regex `\s*` that is
followed by a non-whitespace requirement). -/
def skipWS : List Char → List Char
  | [] => []
  | c :: cs => if isWS c then skipWS cs else c :: cs

/-- Length of the leading whitespace run. -/
def wsSpan : List Char → Nat
  | [] => 0
  | c :: cs => if isWS c then wsSpan cs + 1 else 0

/-- Length of the leading digit run. -/
def digSpan : List Char → Nat
  | [] => 0
  | c :: cs => if isDigitC c then digSpan cs + 1 else 0

/-- Length of the leading ASCII-letter run. -/
def letSpan : List Char → Nat
  | [] => 0
  | c :: cs => if isAlphaC c then letSpan cs + 1 else 0

/-- Python `str.strip` for the texts concerned. -/
def stripL (cs : List Char) : List Char :=
  ((cs.dropWhile (fun c => isWS c)).reverse.dropWhile (fun c => isWS c)).reverse

def stripS (s : String) : String := String.mk (stripL s.data)

/-- Case-insensitive literal match: `pat` is given pre-lowercased; on
success returns the remaining input. -/
def dropCI : List Char → List Char → Option (List Char)
  | [], cs => some cs
  | _ :: _, [] => none
  | p :: ps, c :: cs => if lowerC c = p then dropCI ps cs else none

/-- Case-sensitive literal match. -/
def dropCS : List Char → List Char → Option (List Char)
  | [], cs => some cs
  | _ :: _, [] => none
  | p :: ps, c :: cs => if c = p then dropCS ps cs else none

/-- Python `str.splitlines` (line-break set restricted to the break
characters below; a CR-LF pair counts as one break). -/
def isLineBreak (c : Char) : Bool :=
  c = '\n' || c = '\r' || c = '\x0b' || c = '\x0c' ||
  c = '\x1c' || c = '\x1d' || c = '\x1e' || c = '\x85' ||
  c = Char.ofNat 8232 || c = Char.ofNat 8233

def splitLinesGo (cur : List Char) : List Char → List (List Char)
  | [] => if cur.isEmpty then [] else [cur.reverse]
  | '\r' :: '\n' :: cs => cur.reverse :: splitLinesGo [] cs
  | c :: cs =>
      if isLineBreak c then cur.reverse :: splitLinesGo [] cs
      else splitLinesGo (c :: cur) cs

/-- Python `str.splitlines`: `""` yields no lines, each break terminates
a line (so a trailing break yields no extra empty line). -/
def pyLines (cs : List Char) : List (List Char) := splitLinesGo [] cs

/-- Python `str.split()` (split on whitespace runs, dropping empties):
the number of maximal non-whitespace runs. -/
def wordCountGo (inWord : Bool) : List Char → Nat
  | [] => 0
  | c :: cs =>
      if isWS c then wordCountGo false cs
      else (if inWord then 0 else 1) + wordCountGo true cs

def wordCountL (cs : List Char) : Nat := wordCountGo false cs

def wordCount (s : String) : Nat := wordCountL s.data

/-- Try `f` on every element in order, returning the first success. -/
def firstSome {α β : Type} : List α → (α → Option β) → Option β
  | [], _ => none
  | x :: xs, f => match f x with
      | some b => some b
      | none => firstSome xs f

/-- Regex-style search: try the matcher at every start position, left to
right, tracking the previous character for word-boundary tests. -/
def searchFrom {α : Type} (f : Option Char → List Char → Option α) :
    Option Char → List Char → Option α
  | _, [] => none
  | prev, c :: rest =>
      match f prev (c :: rest) with
      | some r => some r
      | none => searchFrom f (some c) rest

/-- Search with a matcher that ignores the previous character. -/
def searchAll {α : Type} (f : List Char → Option α) (cs : List Char) : Option α :=
  searchFrom (fun _ t => f t) none cs

/-- Word boundary before a word character: start of text or a non-word
predecessor. -/
def boundaryBefore : Option Char → Bool
  | none => true
  | some p => ¬ isWordC p

/-! ## Dates

`PDate` models a Python `datetime.date` triple.  Ordering and the
`timedelta` shift are modelled through the day number `rataDie`, which
agrees with the Python ordinal ordering on valid dates. -/

structure PDate where
  year : Nat
  month : Nat
  day : Nat
deriving DecidableEq, Repr

def isLeap (y : Nat) : Bool :=
  y % 4 = 0 && (y % 100 ≠ 0 || y % 400 = 0)

def daysInMonth (y m : Nat) : Nat :=
  if m = 2 then (if isLeap y then 29 else 28)
  else if m = 4 ∨ m = 6 ∨ m = 9 ∨ m = 11 then 30
  else 31

def validYMD (y m d : Nat) : Bool :=
  1 ≤ y && y ≤ 9999 && 1 ≤ m && m ≤ 12 && 1 ≤ d && d ≤ daysInMonth y m

/-- Day number of a date (shifted civil-from-days algorithm); on valid
dates it is strictly monotone in the calendar order, so it models
the Python date comparison and `timedelta(days := n)` shifts. -/
def rataDie (p : PDate) : Int :=
  let y : Int := if p.month ≤ 2 then (p.year : Int) - 1 else (p.year : Int)
  let era : Int := Int.fdiv y 400
  let yoe : Int := y - era * 400
  let mp : Int := Int.emod ((p.month : Int) + 9) 12
  let doy : Int := Int.fdiv (153 * mp + 2) 5 + (p.day : Int) - 1
  let doe : Int := yoe * 365 + Int.fdiv yoe 4 - Int.fdiv yoe 100 + doy
  era * 146097 + doe

def natOfDigits (cs : List Char) : Nat :=
  cs.foldl (fun acc c => acc * 10 + digVal c) 0

/-- The `strptime` numeric field of one or two digits (shapes `[1-9]`,
`01`-`...` as generated by CPython): with two or more leading digits the
field must take exactly two (a third digit then fails the following
literal); with one it takes one.  Returns the value and the rest. -/
def grabNum2 (lo hi : Nat) (cs : List Char) : Option (Nat × List Char) :=
  let r := digSpan cs
  if r = 0 then none
  else
    let k := min r 2
    let v := natOfDigits (cs.take k)
    if lo ≤ v ∧ v ≤ hi then some (v, cs.drop k) else none

/-- The `strptime` `%Y`: exactly four digits. -/
def grabNum4 (cs : List Char) : Option (Nat × List Char) :=
  if 4 ≤ digSpan cs then some (natOfDigits (cs.take 4), cs.drop 4) else none

/-- The `strptime` `%y`: exactly two digits, with the CPython century mapping. -/
def grabNumY2 (cs : List Char) : Option (Nat × List Char) :=
  if 2 ≤ digSpan cs then
    let v := natOfDigits (cs.take 2)
    some ((if v ≤ 68 then 2000 + v else 1900 + v), cs.drop 2)
  else none

def expectC (c : Char) : List Char → Option (List Char)
  | [] => none
  | d :: rest => if d = c then some rest else none

/-- Format whitespace: `strptime` turns a literal space into `\s+`. -/
def expectWS (cs : List Char) : Option (List Char) :=
  if wsSpan cs = 0 then none else some (skipWS cs)

def monthFullNames : List (List Char × Nat) :=
  [("january".data, 1), ("february".data, 2), ("march".data, 3),
   ("april".data, 4), ("may".data, 5), ("june".data, 6),
   ("july".data, 7), ("august".data, 8), ("september".data, 9),
   ("october".data, 10), ("november".data, 11), ("december".data, 12)]

def monthAbbrNames : List (List Char × Nat) :=
  [("jan".data, 1), ("feb".data, 2), ("mar".data, 3), ("apr".data, 4),
   ("may".data, 5), ("jun".data, 6), ("jul".data, 7), ("aug".data, 8),
   ("sep".data, 9), ("oct".data, 10), ("nov".data, 11), ("dec".data, 12)]

def grabMonthName (table : List (List Char × Nat)) (cs : List Char) :
    Option (Nat × List Char) :=
  firstSome table (fun p => (dropCI p.1 cs).map (fun rest => (p.2, rest)))

/-- The `%Y-%m-%d`, full-string. -/
def fmtYmd (cs : List Char) : Option (Nat × Nat × Nat) :=
  (grabNum4 cs).bind fun (y, r1) =>
  (expectC '-' r1).bind fun r2 =>
  (grabNum2 1 12 r2).bind fun (m, r3) =>
  (expectC '-' r3).bind fun r4 =>
  (grabNum2 1 31 r4).bind fun (d, r5) =>
  if r5 = [] then some (y, m, d) else none

/-- The `%d/%m/%Y` (`swap := false`) and `%m/%d/%Y` (`swap := true`). -/
def fmtSlash4 (swap : Bool) (cs : List Char) : Option (Nat × Nat × Nat) :=
  (grabNum2 1 (if swap then 12 else 31) cs).bind fun (a, r1) =>
  (expectC '/' r1).bind fun r2 =>
  (grabNum2 1 (if swap then 31 else 12) r2).bind fun (b, r3) =>
  (expectC '/' r3).bind fun r4 =>
  (grabNum4 r4).bind fun (y, r5) =>
  if r5 = [] then some (y, (if swap then a else b), (if swap then b else a)) else none

/-- The `%d/%m/%y` and `%m/%d/%y`. -/
def fmtSlash2 (swap : Bool) (cs : List Char) : Option (Nat × Nat × Nat) :=
  (grabNum2 1 (if swap then 12 else 31) cs).bind fun (a, r1) =>
  (expectC '/' r1).bind fun r2 =>
  (grabNum2 1 (if swap then 31 else 12) r2).bind fun (b, r3) =>
  (expectC '/' r3).bind fun r4 =>
  (grabNumY2 r4).bind fun (y, r5) =>
  if r5 = [] then some (y, (if swap then a else b), (if swap then b else a)) else none

/-- The `%d %B %Y` / `%d %b %Y`. -/
def fmtDayMonName (table : List (List Char × Nat)) (cs : List Char) :
    Option (Nat × Nat × Nat) :=
  (grabNum2 1 31 cs).bind fun (d, r1) =>
  (expectWS r1).bind fun r2 =>
  (grabMonthName table r2).bind fun (m, r3) =>
  (expectWS r3).bind fun r4 =>
  (grabNum4 r4).bind fun (y, r5) =>
  if r5 = [] then some (y, m, d) else none

def pad2 (n : Nat) : String :=
  if n < 10 then String.mk ('0' :: (Nat.toDigits 10 n)) else String.mk (Nat.toDigits 10 n)

def pad4 (n : Nat) : String :=
  let ds := Nat.toDigits 10 n
  String.mk (List.replicate (4 - ds.length) '0' ++ ds)

def isoString (y m d : Nat) : String :=
  pad4 y ++ "-" ++ pad2 m ++ "-" ++ pad2 d

/-- A shape parse followed by the `datetime` construction check
(`strptime` raises `ValueError` on an impossible date, which the caller
catches, moving to the next format). -/
def fmtValid (f : List Char → Option (Nat × Nat × Nat)) (cs : List Char) :
    Option (Nat × Nat × Nat) :=
  (f cs).bind fun t =>
    if validYMD t.1 t.2.1 t.2.2 then some t else none

/-- The ordered format list of `_normalise_date`. -/
def normaliseFormats : List (List Char → Option (Nat × Nat × Nat)) :=
  [fmtYmd, fmtSlash4 false, fmtSlash2 false, fmtSlash4 true, fmtSlash2 true,
   fmtDayMonName monthFullNames, fmtDayMonName monthAbbrNames]

/-- The anchored `^(\d{1,2})/(\d{1,2})/(\d{2,4})$` fallback of
`_normalise_date`: both components in 1..12 and different, re-parsed as
`%m/%d/%Y` (which needs a four-digit year). -/
def normaliseSwapFallback (cs : List Char) : Option String :=
  let r1 := digSpan cs
  if r1 = 0 ∨ 3 ≤ r1 then none else
  let d := natOfDigits (cs.take r1)
  match expectC '/' (cs.drop r1) with
  | none => none
  | some t1 =>
    let r2 := digSpan t1
    if r2 = 0 ∨ 3 ≤ r2 then none else
    let m := natOfDigits (t1.take r2)
    match expectC '/' (t1.drop r2) with
    | none => none
    | some t2 =>
      let r3 := digSpan t2
      if t2.drop r3 ≠ [] ∨ r3 < 2 ∨ 5 ≤ r3 then none else
      let y := natOfDigits t2
      if 1 ≤ d ∧ d ≤ 12 ∧ 1 ≤ m ∧ m ≤ 12 ∧ d ≠ m ∧ 1000 ≤ y ∧ validYMD y m d then
        some (isoString y m d)
      else none

/-- The `_normalise_date` on a non-empty string: strip, try the format list
in order, then the swap fallback, else return the stripped string
unchanged. -/
def normalise_date (raw : String) : String :=
  let s := stripL raw.data
  match firstSome normaliseFormats (fun f => fmtValid f s) with
  | some (y, m, d) => isoString y m d
  | none =>
    match normaliseSwapFallback s with
    | some iso => iso
    | none => String.mk s

/-- The `datetime.fromisoformat(.).date()` for the strings this parser can
produce: an exact `YYYY-MM-DD` calendar date, else failure. -/
def parseIsoDate (s : String) : Option PDate :=
  match fmtYmd s.data with
  | some (y, m, d) => if validYMD y m d then some ⟨y, m, d⟩ else none
  | none => none

/-! ## Date-shaped tokens and the issue-date resolver -/

/-- Exactly `n` digits taken (a longer run fails the following caller-side
literal, as in the regex). -/
def grabExactDigits (n : Nat) (cs : List Char) : Option (List Char × List Char) :=
  if n ≤ digSpan cs then some (cs.take n, cs.drop n) else none

/-- The `\d{4}-\d{2}-\d{2}` at the start; returns (match, rest). -/
def dAlt1 (cs : List Char) : Option (List Char × List Char) :=
  (grabExactDigits 4 cs).bind fun p1 =>
  (expectC '-' p1.2).bind fun r2 =>
  (grabExactDigits 2 r2).bind fun p2 =>
  (expectC '-' p2.2).bind fun r4 =>
  (grabExactDigits 2 r4).map fun p3 =>
  (p1.1 ++ '-' :: p2.1 ++ '-' :: p3.1, p3.2)

/-- The `\d{1,2}/\d{1,2}/\d{2,4}` at the start. -/
def dAlt2 (cs : List Char) : Option (List Char × List Char) :=
  let r1 := digSpan cs
  if r1 = 0 ∨ 3 ≤ r1 then none else
  match expectC '/' (cs.drop r1) with
  | none => none
  | some t1 =>
    let r2 := digSpan t1
    if r2 = 0 ∨ 3 ≤ r2 then none else
    match expectC '/' (t1.drop r2) with
    | none => none
    | some t2 =>
      let r3 := digSpan t2
      if r3 < 2 then none else
      let k := min r3 4
      some (cs.take r1 ++ '/' :: t1.take r2 ++ '/' :: t2.take k, t2.drop k)

/-- The `\d{1,2}\s+[A-Za-z]{3,9}\s+\d{4}` at the start. -/
def dAlt3 (cs : List Char) : Option (List Char × List Char) :=
  let r1 := digSpan cs
  if r1 = 0 ∨ 3 ≤ r1 then none else
  let t1 := cs.drop r1
  let w1 := wsSpan t1
  if w1 = 0 then none else
  let t2 := t1.drop w1
  let l := letSpan t2
  if l < 3 ∨ 10 ≤ l then none else
  let t3 := t2.drop l
  let w2 := wsSpan t3
  if w2 = 0 then none else
  let t4 := t3.drop w2
  if digSpan t4 < 4 then none else
  some (cs.take r1 ++ t1.take w1 ++ t2.take l ++ t3.take w2 ++ t4.take 4, t4.drop 4)

/-- The date alternation of the issue-date patterns, alternatives in
regex order. -/
def dateAlt (cs : List Char) : Option (List Char) :=
  match dAlt1 cs with
  | some r => some r.1
  | none =>
    match dAlt2 cs with
    | some r => some r.1
    | none => (dAlt3 cs).map Prod.fst

/-- Lazy gap `(?:[^\d\n]{0,120}?)` followed by the date alternation: the
gap cannot cross a digit or a newline, so it extends exactly to the
first digit (within the budget), where the date must match. -/
def gapDateGo (budget : Nat) : List Char → Option (List Char)
  | [] => none
  | c :: cs =>
      if isDigitC c then dateAlt (c :: cs)
      else if c = '\n' then none
      else
        match budget with
        | 0 => none
        | b + 1 => gapDateGo b cs

/-- Greedy gap `[^\d]{0,160}` (newlines allowed) followed by the date
alternation; greedy and lazy agree here because the gap cannot cross a
digit. -/
def gap160Go (budget : Nat) : List Char → Option (List Char)
  | [] => none
  | c :: cs =>
      if isDigitC c then dateAlt (c :: cs)
      else
        match budget with
        | 0 => none
        | b + 1 => gap160Go b cs

/-- The `Date\s*of\s*(?:last\s*)?issue`. -/
def labDateOfIssue (cs : List Char) : Option (List Char) :=
  (dropCI ("date".data) cs).bind fun r1 =>
  (dropCI ("of".data) (skipWS r1)).bind fun r2 =>
  let r3 := skipWS r2
  match dropCI ("last".data) r3 with
  | some r4 => dropCI ("issue".data) (skipWS r4)
  | none => dropCI ("issue".data) r3

/-- The `(?:Date\s*of\s*revision|Revision(?:\s*Date)?)`: possible label end
positions in the regex-engine backtracking order. -/
def labRevisionEnds (cs : List Char) : List (List Char) :=
  match (dropCI ("date".data) cs).bind (fun r1 =>
          (dropCI ("of".data) (skipWS r1)).bind (fun r2 =>
            dropCI ("revision".data) (skipWS r2))) with
  | some r => [r]
  | none =>
    match dropCI ("revision".data) cs with
    | some r =>
      match dropCI ("date".data) (skipWS r) with
      | some r2 => [r2, r]
      | none => [r]
    | none => []

/-- The `Issue\s*Date`. -/
def labIssueDate (cs : List Char) : Option (List Char) :=
  (dropCI ("issue".data) cs).bind fun r1 =>
  dropCI ("date".data) (skipWS r1)

/-- The `Issued(?!\s*by\b)`. -/
def labIssuedOn (cs : List Char) : Option (List Char) :=
  (dropCI ("issued".data) cs).bind fun r =>
  match dropCI ("by".data) (skipWS r) with
  | some r2 =>
    match r2 with
    | [] => none
    | c :: _ => if isWordC c then some r else none
  | none => some r

/-- The `Date\s*Prepared`. -/
def labDatePrepared (cs : List Char) : Option (List Char) :=
  (dropCI ("date".data) cs).bind fun r1 =>
  dropCI ("prepared".data) (skipWS r1)

def tryDateOfIssueAt (cs : List Char) : Option (List Char) :=
  (labDateOfIssue cs).bind (gapDateGo 120)

def tryRevisionAt (cs : List Char) : Option (List Char) :=
  firstSome (labRevisionEnds cs) (gapDateGo 120)

def tryIssueDateAt (cs : List Char) : Option (List Char) :=
  (labIssueDate cs).bind (gapDateGo 120)

def tryIssuedOnAt (cs : List Char) : Option (List Char) :=
  (labIssuedOn cs).bind (gapDateGo 120)

def tryDatePreparedAt (cs : List Char) : Option (List Char) :=
  (labDatePrepared cs).bind (gapDateGo 120)

/-- The `_find_first`: search section 16 first, then (when non-empty) the
whole text; returns the date capture. -/
def find_first (f : List Char → Option (List Char)) (sect16 full : String) :
    Option String :=
  match searchAll f sect16.data with
  | some d => some (String.mk d)
  | none =>
    if full = "" then none
    else (searchAll f full.data).map String.mk

/-- The five labelled candidates of `_resolve_issue_date`, in priority
order. -/
def labeledDateCandidates (sect16 full : String) : List (Option String) :=
  [find_first tryDateOfIssueAt sect16 full,
   find_first tryRevisionAt sect16 full,
   find_first tryIssueDateAt sect16 full,
   find_first tryIssuedOnAt sect16 full,
   find_first tryDatePreparedAt sect16 full]

/-- The label tokens of `_nearest_label_date_anywhere` (note: no
`last` option and no bare `Revision` form here). -/
def labDateOfIssueTok (cs : List Char) : Option (List Char) :=
  (dropCI ("date".data) cs).bind fun r1 =>
  (dropCI ("of".data) (skipWS r1)).bind fun r2 =>
  dropCI ("issue".data) (skipWS r2)

def labRevisionTok (cs : List Char) : Option (List Char) :=
  (dropCI ("date".data) cs).bind fun r1 =>
  (dropCI ("of".data) (skipWS r1)).bind fun r2 =>
  dropCI ("revision".data) (skipWS r2)

/-- The `_nearest_label_date_anywhere`: each label token searched in order
over the whole text, with a 160-character non-digit window. -/
def nearest_label_date_anywhere (full : String) : Option String :=
  (firstSome
    [labDateOfIssueTok, labRevisionTok, labIssueDate, labIssuedOn, labDatePrepared]
    (fun lab => searchAll (fun cs => (lab cs).bind (gap160Go 160)) full.data)).map String.mk

/-- First unlabelled date-shaped token of a text. -/
def generic_date_first (s : String) : Option String :=
  (searchAll dateAlt s.data).map String.mk

/-- Accept or reject one raw candidate: normalise it, then apply the
60-day future bound; a normalised value that does not parse as an ISO
date is returned as-is (the except branch of the code). -/
def tryCandidate (today : PDate) (raw : String) : Option String :=
  let iso := normalise_date raw
  match parseIsoDate iso with
  | none => some iso
  | some d => if rataDie d ≤ rataDie today + 60 then some iso else none

/-- First candidate in the list that is present, non-empty and accepted. -/
def resolveLoop (today : PDate) : List (Option String) → Option String
  | [] => none
  | c :: rest =>
    match c with
    | none => resolveLoop today rest
    | some raw =>
      if raw = "" then resolveLoop today rest
      else
        match tryCandidate today raw with
        | some iso => some iso
        | none => resolveLoop today rest

/-- The `_resolve_issue_date`, mirroring the three stages of the code: the
labelled-candidate loop, the nearest-label block, and the unlabelled
section-16 fallback block.  The parse time `date.today()` is the
explicit parameter `today`. -/
def resolve_issue_date (today : PDate) (sect16 full : String) : Option String :=
  match resolveLoop today (labeledDateCandidates sect16 full) with
  | some iso => some iso
  | none =>
    let step2 :=
      match nearest_label_date_anywhere full with
      | some raw => if raw = "" then none else tryCandidate today raw
      | none => none
    match step2 with
    | some iso => some iso
    | none =>
      match generic_date_first sect16 with
      | some raw => if raw = "" then none else tryCandidate today raw
      | none => none

/-- The uniform description of the resolver: one candidate list in
priority order, the first accepted candidate wins, every stage subject
to the same 60-day bound. -/
def resolve_issue_date_spec (today : PDate) (sect16 full : String) : Option String :=
  resolveLoop today
    (labeledDateCandidates sect16 full ++
      [nearest_label_date_anywhere full, generic_date_first sect16])

/-! ## Section segmentation (`_split_sections`) -/

def sectionWordKeys : List (List Char × String) :=
  [("one".data, "1"), ("two".data, "2"), ("three".data, "3"), ("four".data, "4"),
   ("five".data, "5"), ("six".data, "6"), ("seven".data, "7"), ("eight".data, "8"),
   ("nine".data, "9"), ("ten".data, "10"), ("eleven".data, "11"), ("twelve".data, "12"),
   ("thirteen".data, "13"), ("fourteen".data, "14"), ("fifteen".data, "15"),
   ("sixteen".data, "16")]

/-- The `(?P<num>\d{1,2})|(?P<word>one|...|sixteen)` at the start: one or
two digits as written, else the first matching number word (alternation
order, so a word can match as a prefix). -/
def numOrWordAt (cs : List Char) : Option (String × List Char) :=
  let r := digSpan cs
  if r ≠ 0 then
    let k := min r 2
    some (String.mk (cs.take k), cs.drop k)
  else
    firstSome sectionWordKeys (fun p => (dropCI p.1 cs).map (fun rest => (p.2, rest)))

/-- Header after the anchor: `\s*(?:SECTION|Section)?\s*(num|word)`,
with the regex-engine fallback when the optional `Section` literal matches
but no number follows it. -/
def headerNumAt (cs : List Char) : Option (String × List Char) :=
  let r := skipWS cs
  match (dropCI ("section".data) r).bind (fun r2 => numOrWordAt (skipWS r2)) with
  | some x => some x
  | none => numOrWordAt r

/-- Then the optional `[\.:\)]?`. -/
def headerAt (cs : List Char) : Option (String × List Char) :=
  (headerNumAt cs).map (fun x =>
    match x.2 with
    | c :: rest => if c = '.' ∨ c = ':' ∨ c = ')' then (x.1, rest) else x
    | [] => x)

/-- Lazy body capture: the body extends to the first newline whose
continuation parses as a section header (the lookahead), or to the end
of the text; the surrounding `\s*` paddings are immaterial after the
strip applied to the captured body. -/
def bodyTake : List Char → (List Char × List Char)
  | [] => ([], [])
  | c :: cs =>
      if c = '\n' ∧ (headerNumAt cs).isSome then ([], c :: cs)
      else
        let p := bodyTake cs
        (c :: p.1, p.2)

def lookupSec : List (String × String) → String → Option String
  | [], _ => none
  | p :: rest, k => if p.1 = k then some p.2 else lookupSec rest k

/-- Keep the longest stripped body per section number. -/
def updateSec (m : List (String × String)) (k : String) (body : String) :
    List (String × String) :=
  match lookupSec m k with
  | none => m ++ [(k, body)]
  | some old =>
      if old.length < body.length then
        m.map (fun p => if p.1 = k then (k, body) else p)
      else m

/-- The `finditer` scan: a match may start at the text start or at a
newline (which the anchor consumes); scanning resumes at the body end. -/
def scanSections (fuel : Nat) (acc : List (String × String)) (atStart : Bool)
    (cs : List Char) : List (String × String) :=
  match fuel with
  | 0 => acc
  | f + 1 =>
    match cs with
    | [] => acc
    | c :: rest =>
      let anchored : Option (List Char) :=
        if atStart then some (c :: rest)
        else if c = '\n' then some rest
        else none
      match anchored with
      | none => scanSections f acc false rest
      | some after =>
        match headerAt after with
        | none => scanSections f acc false rest
        | some kr =>
          let bt := bodyTake kr.2
          scanSections f (updateSec acc kr.1 (String.mk (stripL bt.1))) false bt.2

def split_sections (text : String) : List (String × String) :=
  scanSections (text.data.length + 1) [] true text.data

def sectGet (m : List (String × String)) (k : String) : String :=
  (lookupSec m k).getD ("")

/-! ## Labelled-value captures -/

/-- Suffix positions after consuming leading whitespace, most consumed
first (the greedy order of `\s*`). -/
def wsSplits : List Char → List (List Char)
  | [] => [[]]
  | c :: cs => if isWS c then wsSplits cs ++ [c :: cs] else [c :: cs]

/-- Greedy run of characters satisfying `ok`. -/
def okRun (ok : Char → Bool) : List Char → List Char
  | [] => []
  | c :: cs => if ok c then c :: okRun ok cs else []

/-- The `\s*[:\-]?\s*(OK+)` in the regex-engine backtracking order (each `\s*`
longest first, the optional punctuation taken when possible); returns
the raw greedy capture. -/
def sufCap (ok : Char → Bool) (cs : List Char) : Option (List Char) :=
  firstSome (wsSplits cs) (fun cs1 =>
    let withPunct : Option (List Char) :=
      match cs1 with
      | c :: rest =>
        if c = ':' ∨ c = '-' then
          firstSome (wsSplits rest) (fun cs2 =>
            match cs2 with
            | d :: _ => if ok d then some (okRun ok cs2) else none
            | [] => none)
        else none
      | [] => none
    match withPunct with
    | some r => some r
    | none =>
      firstSome (wsSplits cs1) (fun cs2 =>
        match cs2 with
        | d :: _ => if ok d then some (okRun ok cs2) else none
        | [] => none))

/-- The `\s*[:\-]?\s*` before a capture that cannot start with whitespace or
punctuation (digits, letters): greedy with no effective backtracking. -/
def skipWsPunct (cs : List Char) : List Char :=
  let r := skipWS cs
  match r with
  | c :: rest => if c = ':' ∨ c = '-' then skipWS rest else r
  | [] => []

def boundaryAfterHere : List Char → Bool
  | [] => true
  | c :: _ => ¬ isWordC c

/-! ## Transport (section 14) field searchers -/

/-- The `(\d{3,4})\b`: greedy four digits backtracking to three, each needing
a trailing word boundary; only a run of exactly three or four digits not
followed by a word character can match. -/
def grabDigits34 (cs : List Char) : Option (List Char) :=
  let r := digSpan cs
  if r < 3 ∨ 5 ≤ r then none
  else if boundaryAfterHere (cs.drop r) then some (cs.take r) else none

/-- Candidate rests of `(?:No\.?|Number)?` in regex-engine order:
`No.`, `No`, `Number`, absent. -/
def unNoLabelEnds (cs : List Char) : List (List Char) :=
  let l1 : List (List Char) :=
    match dropCI ("no".data) cs with
    | some r =>
      match r with
      | '.' :: r2 => [r2, r]
      | _ => [r]
    | none => []
  let l2 : List (List Char) :=
    match dropCI ("number".data) cs with
    | some r => [r]
    | none => []
  l1 ++ l2 ++ [cs]

/-- The `\b(?:UN|UN/ID)\s*(?:No\.?|Number)?\s*[:\-]?\s*(\d{3,4})\b` at one
position (boundary before checked by the caller). -/
def tryUNAt (cs : List Char) : Option (List Char) :=
  match dropCI ("un".data) cs with
  | none => none
  | some r =>
    let go : List Char → Option (List Char) := fun rr =>
      firstSome (unNoLabelEnds (skipWS rr)) (fun e => grabDigits34 (skipWsPunct e))
    match go r with
    | some d => some d
    | none => (dropCI ("/id".data) r).bind go

def searchUN (cs : List Char) : Option String :=
  (searchFrom (fun prev t => if boundaryBefore prev then tryUNAt t else none)
    none cs).map String.mk

/-- The `([0-9]{1,2}(?:\.[0-9])?)`: one or two digits, optionally a dot and
one more digit. -/
def dgClassCapture (cs : List Char) : Option (List Char) :=
  let r := digSpan cs
  if r = 0 then none
  else
    let k := min r 2
    let base := cs.take k
    match cs.drop k with
    | '.' :: rest =>
      match rest with
      | d :: _ => if isDigitC d then some (base ++ ['.', d]) else some base
      | [] => some base
    | _ => some base

/-- The `(?:Class|Hazard\s*Class(?:es)?|DG\s*Class)\s*[:\-]?\s*(...)` at one
position. -/
def tryClassAt (cs : List Char) : Option (List Char) :=
  let ends : List (List Char) :=
    match dropCI ("class".data) cs with
    | some r => [r]
    | none =>
      match dropCI ("hazard".data) cs with
      | some r1 =>
        (match dropCI ("class".data) (skipWS r1) with
         | some r2 =>
           match dropCI ("es".data) r2 with
           | some r3 => [r3, r2]
           | none => [r2]
         | none => [])
      | none =>
        match (dropCI ("dg".data) cs).bind (fun r1 => dropCI ("class".data) (skipWS r1)) with
        | some r => [r]
        | none => []
  firstSome ends (fun e => dgClassCapture (skipWsPunct e))

def searchClass (cs : List Char) : Option String :=
  (searchAll tryClassAt cs).map String.mk

/-- The `(I{1,3}|[1-3])\b` (case-insensitive `I`). -/
def iSpan : List Char → Nat
  | [] => 0
  | c :: cs => if lowerC c = 'i' then iSpan cs + 1 else 0

def pgCapture (cs : List Char) : Option (List Char) :=
  let r := iSpan cs
  if r ≠ 0 then
    if r ≤ 3 ∧ boundaryAfterHere (cs.drop r) then some (cs.take r) else none
  else
    match cs with
    | c :: rest =>
      if (c = '1' ∨ c = '2' ∨ c = '3') ∧ boundaryAfterHere rest then some [c] else none
    | [] => none

/-- The `P\.?G\.?` candidate rests, dots greedy. -/
def pgAlt3Ends (cs : List Char) : List (List Char) :=
  match dropCI ("p".data) cs with
  | none => []
  | some r1 =>
    let d1s : List (List Char) :=
      match r1 with
      | '.' :: r2 => [r2, r1]
      | _ => [r1]
    d1s.flatMap (fun d1 =>
      match dropCI ("g".data) d1 with
      | none => []
      | some rg =>
        match rg with
        | '.' :: r3 => [r3, rg]
        | _ => [rg])

/-- The `(?:Packing\s*Group|PG|P\.?G\.?)\s*[:\-]?\s*(I{1,3}|[1-3])\b`. -/
def tryPGAt (cs : List Char) : Option (List Char) :=
  let e1 : List (List Char) :=
    match (dropCI ("packing".data) cs).bind (fun r => dropCI ("group".data) (skipWS r)) with
    | some r => [r]
    | none => []
  let e2 : List (List Char) :=
    match dropCI ("pg".data) cs with
    | some r => [r]
    | none => []
  firstSome (e1 ++ e2 ++ pgAlt3Ends cs) (fun e => pgCapture (skipWsPunct e))

def searchPG (cs : List Char) : Option String :=
  (searchAll tryPGAt cs).map String.mk

/-- The subsidiary-risks capture class `[A-Za-z0-9 ,/.-]`. -/
def subsOk (c : Char) : Bool :=
  isAlphaC c || isDigitC c || c = ' ' || c = ',' || c = '/' || c = '.' || c = '-'

/-- The `(?:Subsidiary\s*Risk(?:s)?|Sub\s*Risk)\s*[:\-]?\s*([A-Za-z0-9 ,/.-]+)`. -/
def trySubsAt (cs : List Char) : Option (List Char) :=
  let e1 : List (List Char) :=
    match (dropCI ("subsidiary".data) cs).bind (fun r => dropCI ("risk".data) (skipWS r)) with
    | some r =>
      (match dropCI ("s".data) r with
       | some r2 => [r2, r]
       | none => [r])
    | none => []
  let e2 : List (List Char) :=
    match (dropCI ("sub".data) cs).bind (fun r => dropCI ("risk".data) (skipWS r)) with
    | some r => [r]
    | none => []
  firstSome (e1 ++ e2) (fun e => sufCap subsOk e)

def searchSubs (cs : List Char) : Option String :=
  (searchAll trySubsAt cs).map String.mk

/-- The `not\s+(?:subject|regulated)|not\s+classified\s+as\s+dangerous\s+goods`. -/
def tryDgNoneAt (cs : List Char) : Option Unit :=
  match dropCI ("not".data) cs with
  | none => none
  | some r =>
    match expectWS r with
    | none => none
    | some r2 =>
      match dropCI ("subject".data) r2 with
      | some _ => some ()
      | none =>
        match dropCI ("regulated".data) r2 with
        | some _ => some ()
        | none =>
          (dropCI ("classified".data) r2).bind fun r3 =>
          (expectWS r3).bind fun r4 =>
          (dropCI ("as".data) r4).bind fun r5 =>
          (expectWS r5).bind fun r6 =>
          (dropCI ("dangerous".data) r6).bind fun r7 =>
          (expectWS r7).bind fun r8 =>
          (dropCI ("goods".data) r8).map fun _ => ()

def searchDgNone (cs : List Char) : Bool :=
  (searchAll tryDgNoneAt cs).isSome

/-- Python `str.isspace`-style blank test used by `sect14.strip()`
truthiness. -/
def isBlankL (cs : List Char) : Bool := cs.all isWS

/-! ## Dangerous-goods tuple (`_dangerous_goods_tuple_improved`) -/

/-- The result tuple `(is_dg, dg_class, pg, un, confidence, subsidiary)`. -/
structure DgTuple where
  is_dg : Bool
  dg_class : Option String
  packing_group : Option String
  un_number : Option String
  confidence : ℚ
  subsidiary_risks : Option String
deriving DecidableEq, Repr

def dg_none_present (sect14 : String) : Bool := searchDgNone sect14.data

def dangerous_goods_tuple_improved (sect14 : String) : DgTuple :=
  if isBlankL sect14.data then ⟨false, none, none, none, 0, none⟩
  else if dg_none_present sect14 then ⟨false, none, none, none, 1, none⟩
  else
    let un := searchUN sect14.data
    let dg_class := searchClass sect14.data
    let pg := searchPG sect14.data
    let subs := searchSubs sect14.data
    let is_dg := un.isSome || dg_class.isSome || pg.isSome
    let signals := (if un.isSome then 1 else 0) + (if dg_class.isSome then 1 else 0) +
      (if pg.isSome then 1 else 0)
    let conf : ℚ :=
      if is_dg then
        if un.isSome ∧ dg_class.isSome then 1
        else if 2 ≤ signals then mkRat 8 10
        else mkRat 6 10
      else 0
    ⟨is_dg, dg_class, pg, un, conf, subs⟩

/-! ## Hazard statements and the hazardous flag -/

/-- The `[:\-]?\s*(OK+)` (no whitespace allowed before the punctuation):
punctuation taken first when present, then `\s*` longest first; on
failure the punctuation is left unconsumed and the capture may start at
it. -/
def punctFirstCap (ok : Char → Bool) (cs : List Char) : Option (List Char) :=
  let okStart : List Char → Option (List Char) := fun cs2 =>
    match cs2 with
    | d :: _ => if ok d then some (okRun ok cs2) else none
    | [] => none
  let withPunct : Option (List Char) :=
    match cs with
    | c :: rest =>
      if c = ':' ∨ c = '-' then firstSome (wsSplits rest) okStart else none
    | [] => none
  match withPunct with
  | some r => some r
  | none => firstSome (wsSplits cs) okStart

/-- The `\b(H\d{3}[A-Z]?)\b[:\-]?\s*(.+)$` at one position of a (stripped)
line: the code capture and the description capture. -/
def tryHLineAt (cs : List Char) : Option (List Char × List Char) :=
  match cs with
  | c :: rest =>
    if lowerC c = 'h' ∧ 3 ≤ digSpan rest then
      let afterD := rest.drop 3
      let code3 := c :: rest.take 3
      let withLetter : Option (List Char × List Char) :=
        match afterD with
        | l :: rest2 =>
          if isAlphaC l ∧ boundaryAfterHere rest2 then some (code3 ++ [l], rest2) else none
        | [] => none
      let codeRest : Option (List Char × List Char) :=
        match withLetter with
        | some x => some x
        | none => if boundaryAfterHere afterD then some (code3, afterD) else none
      codeRest.bind fun cr =>
        (punctFirstCap (fun d => d ≠ '\n') cr.2).map fun desc => (cr.1, desc)
    else none
  | [] => none

/-- The line loop of `_extract_hazard_statements`: each stripped line is
searched for an H code (word boundary before the `H` required). -/
def hLineSearch (cs : List Char) : Option (List Char × List Char) :=
  searchFrom (fun prev t => if boundaryBefore prev then tryHLineAt t else none) none cs

/-- The `H\d{3}` must take exactly three digits: a fourth digit makes the
trailing boundary impossible at every split, so the engine rejects. -/
def phase1_statements (sect2 : String) : List String :=
  (pyLines sect2.data).filterMap (fun ln =>
    (hLineSearch (stripL ln)).map (fun p =>
      String.mk (pyUpper p.1) ++ " " ++ String.mk (stripL p.2)))

/-- The `Hazard\s*Statements?` searched anywhere in a line. -/
def hazHeaderIn (ln : List Char) : Bool :=
  (searchAll (fun cs =>
    (dropCI ("hazard".data) cs).bind fun r =>
    (dropCI ("statement".data) (skipWS r)).map fun _ => ()) ln).isSome

/-- The capture loop after a `Hazard Statements` header: following
non-blank lines until the first blank line; a later header line re-arms
the capture flag. -/
def headerCaptureGo (capture : Bool) : List (List Char) → List String
  | [] => []
  | ln :: rest =>
      if hazHeaderIn ln then headerCaptureGo true rest
      else if capture then
        if (stripL ln).isEmpty then []
        else String.mk (stripL ln) :: headerCaptureGo true rest
      else headerCaptureGo false rest

def header_capture_statements (lines : List (List Char)) : List String :=
  headerCaptureGo false lines

/-- The `_extract_hazard_statements`. -/
def extract_hazard_statements (sect2 : String) : List String :=
  let hazards := phase1_statements sect2
  if hazards.isEmpty then header_capture_statements (pyLines sect2.data)
  else hazards

/-- The `not\s+classified\s+as\s+hazardous|non[-\s]?hazardous|does\s+not\s+meet\s+the\s+criteria`. -/
def tryHazNoneAt (cs : List Char) : Option Unit :=
  let alt1 : Option Unit :=
    (dropCI ("not".data) cs).bind fun r =>
    (expectWS r).bind fun r2 =>
    (dropCI ("classified".data) r2).bind fun r3 =>
    (expectWS r3).bind fun r4 =>
    (dropCI ("as".data) r4).bind fun r5 =>
    (expectWS r5).bind fun r6 =>
    (dropCI ("hazardous".data) r6).map fun _ => ()
  match alt1 with
  | some _ => some ()
  | none =>
    let alt2 : Option Unit :=
      (dropCI ("non".data) cs).bind fun r =>
      match r with
      | c :: rest =>
        if c = '-' ∨ isWS c then
          match dropCI ("hazardous".data) rest with
          | some _ => some ()
          | none => (dropCI ("hazardous".data) r).map fun _ => ()
        else (dropCI ("hazardous".data) r).map fun _ => ()
      | [] => none
    match alt2 with
    | some _ => some ()
    | none =>
      (dropCI ("does".data) cs).bind fun r =>
      (expectWS r).bind fun r2 =>
      (dropCI ("not".data) r2).bind fun r3 =>
      (expectWS r3).bind fun r4 =>
      (dropCI ("meet".data) r4).bind fun r5 =>
      (expectWS r5).bind fun r6 =>
      (dropCI ("the".data) r6).bind fun r7 =>
      (expectWS r7).bind fun r8 =>
      (dropCI ("criteria".data) r8).map fun _ => ()

def searchHazNone (cs : List Char) : Bool :=
  (searchAll tryHazNoneAt cs).isSome

/-- The explicit negation phrase test of `_is_hazardous` (the code
searches the lowercased body; the pattern is case-insensitive). -/
def haz_none_present (sect2 : String) : Bool :=
  searchHazNone (pyLower sect2.data)

/-- The `\bhazard(?:ous|s)\b`, case-sensitive (applied to the lowercased
body). -/
def tryHazKwAt (cs : List Char) : Option Unit :=
  (dropCS ("hazard".data) cs).bind fun r =>
  match dropCS ("ous".data) r with
  | some r2 => if boundaryAfterHere r2 then some () else none
  | none =>
    match dropCS ("s".data) r with
    | some r2 => if boundaryAfterHere r2 then some () else none
    | none => none

def searchHazKw (cs : List Char) : Bool :=
  (searchFrom (fun prev t => if boundaryBefore prev then tryHazKwAt t else none)
    none cs).isSome

def haz_keyword_present (sect2 : String) : Bool :=
  searchHazKw (pyLower sect2.data)

/-- The `_is_hazardous`. -/
def is_hazardous (sect2 : String) (hazard_statements : List String) : Bool × ℚ :=
  if haz_none_present sect2 then (false, 1)
  else if hazard_statements.isEmpty then
    (if haz_keyword_present sect2 then (true, mkRat 5 10) else (false, mkRat 2 10))
  else (true, mkRat 9 10)

/-! ## Vendor extraction (`_extract_vendor_improved`) -/

def vendOk (c : Char) : Bool := ¬ (c = ',' ∨ c = '\n')

/-- The `(?:SDS\s+)?(?:Prepared|Issued)\s+by\s*[:\-]?\s*([^,\n]+)`. -/
def tryPrep1At (cs : List Char) : Option (List Char) :=
  let core : List Char → Option (List Char) := fun r =>
    (match dropCI ("prepared".data) r with
     | some r1 => some r1
     | none => dropCI ("issued".data) r).bind fun r1 =>
    (expectWS r1).bind fun r2 =>
    (dropCI ("by".data) r2).bind fun r3 =>
    sufCap vendOk r3
  match (dropCI ("sds".data) cs).bind expectWS with
  | some r =>
    (match core r with
     | some v => some v
     | none => core cs)
  | none => core cs

/-- The `Prepared\s*[:\-]?\s*([^,\n]+)`. -/
def tryPrep2At (cs : List Char) : Option (List Char) :=
  (dropCI ("prepared".data) cs).bind (sufCap vendOk)

def hasTokenAny (toks : List (List Char)) (s : List Char) : Bool :=
  (searchAll (fun cs => firstSome toks (fun t => dropCI t cs)) s).isSome

def contactToks : List (List Char) :=
  [("address".data), ("street".data), ("road".data), ("tel".data),
   ("phone".data), ("email".data), ("website".data), ("emergency".data)]

/-- The `(Address|Street|Road|Tel|Phone|Email|Website|Emergency)` found
case-insensitively (priorities 2 and 3). -/
def contact_token (v : String) : Bool := hasTokenAny contactToks v.data

/-- The same filter with `Date` added (priority 1). -/
def contact_token16 (v : String) : Bool :=
  hasTokenAny (contactToks ++ [("date".data)]) v.data

/-- The priority-1 candidate filter: non-empty, no contact token (with
`Date`), at least two words. -/
def vendorCheck16 (v : String) : Option String :=
  if v ≠ "" ∧ contact_token16 v = false ∧ 2 ≤ wordCount v then some v else none

/-- The priority-2 candidate filter: non-empty, no contact token, at
least two words. -/
def vendorCheckStd (v : String) : Option String :=
  if v ≠ "" ∧ contact_token v = false ∧ 2 ≤ wordCount v then some v else none

/-- Priority 1: `Prepared`/`Issued by` statements in section 16. -/
def vendor_p1 (sect16 : String) : Option String :=
  let second : Option String :=
    match searchAll tryPrep2At sect16.data with
    | some cap2 => vendorCheck16 (String.mk (stripL cap2))
    | none => none
  match searchAll tryPrep1At sect16.data with
  | some cap =>
    (match vendorCheck16 (String.mk (stripL cap)) with
     | some v => some v
     | none => second)
  | none => second

/-- The `(?:Supplier|Company|Manufacturer|Distributor)` label rest. -/
def lineLabelRest (cs : List Char) : Option (List Char) :=
  match dropCI ("supplier".data) cs with
  | some r => some r
  | none =>
    match dropCI ("company".data) cs with
    | some r => some r
    | none =>
      match dropCI ("manufacturer".data) cs with
      | some r => some r
      | none => dropCI ("distributor".data) cs

/-- The `(?:Supplier|Company|Manufacturer|Distributor)\s*[:\-]?\s*([^,\n]+)`. -/
def trySupplierLabAt (cs : List Char) : Option (List Char) :=
  (lineLabelRest cs).bind (sufCap vendOk)

/-- Priority 2: the labelled supplier pattern over section 1 then the
whole text. -/
def vendor_p2 (sect1 full : String) : Option String :=
  let onFull : Option String :=
    match searchAll trySupplierLabAt full.data with
    | some cap2 => vendorCheckStd (String.mk (stripL cap2))
    | none => none
  match searchAll trySupplierLabAt sect1.data with
  | some cap =>
    (match vendorCheckStd (String.mk (stripL cap)) with
     | some v => some v
     | none => onFull)
  | none => onFull

/-- Position of the first `\n\n` (length including it), if any. -/
def findDoubleNL : List Char → Option Nat
  | '\n' :: '\n' :: _ => some 2
  | _ :: rest => (findDoubleNL rest).map (fun n => n + 1)
  | [] => none

/-- The `1\.3\s*(?:Details|Supplier|Manufacturer|Company).*?(?:\n\n|\Z)` at
one position: returns the whole block (group 0). -/
def try13At (cs : List Char) : Option (List Char) :=
  (dropCS ("1.3".data) cs).bind fun r =>
  let r1 := skipWS r
  let lab : Option (List Char) :=
    match dropCI ("details".data) r1 with
    | some r2 => some r2
    | none =>
      match dropCI ("supplier".data) r1 with
      | some r2 => some r2
      | none =>
        match dropCI ("manufacturer".data) r1 with
        | some r2 => some r2
        | none => dropCI ("company".data) r1
  lab.map fun r2 =>
    let extra := (findDoubleNL r2).getD r2.length
    cs.take (cs.length - r2.length + extra)

def vendor_block_13 (sect1 : String) : Option (List Char) :=
  searchAll try13At sect1.data

/-- Stripped non-empty lines of the block. -/
def blockLines (block : List Char) : List String :=
  (pyLines block).filterMap (fun ln =>
    let s := stripL ln
    if s.isEmpty then none else some (String.mk s))

/-- The `^(?:Supplier|Company|Manufacturer|Distributor)\b` on a line. -/
def lineLabelCheck (ln : String) : Bool :=
  match lineLabelRest ln.data with
  | some r => boundaryAfterHere r
  | none => false

/-- The `^(?:Supplier|Company|Manufacturer|Distributor)\s*[:\-]?\s*(.+)$`:
the stripped inline value. -/
def m2Cand (ln : String) : Option String :=
  (lineLabelRest ln.data).bind (fun r =>
    (sufCap (fun c => c ≠ '\n') r).map (fun cap => String.mk (stripL cap)))

/-- Priority 3 line loop: inline value filtered only by the contact
tokens; otherwise the following line checked only for two or more
words. -/
def p3Loop : List String → Option String
  | [] => none
  | ln :: rest =>
    if lineLabelCheck ln then
      let inline : Option String :=
        match m2Cand ln with
        | some cand => if cand ≠ "" ∧ contact_token cand = false then some cand else none
        | none => none
      match inline with
      | some v => some v
      | none =>
        match rest.head? with
        | some nl => if nl ≠ "" ∧ 2 ≤ wordCount nl then some nl else p3Loop rest
        | none => p3Loop rest
    else p3Loop rest

def vendor_p3 (sect1 : String) : Option String :=
  match vendor_block_13 sect1 with
  | some block => p3Loop (blockLines block)
  | none => none

/-- The `_extract_vendor_improved`. -/
def extract_vendor_improved (sect1 sect16 full_text : String) : Option String :=
  match (if sect16 ≠ "" then vendor_p1 sect16 else none) with
  | some v => some v
  | none =>
    match vendor_p2 sect1 full_text with
    | some v => some v
    | none => vendor_p3 sect1

/-! ## Product name and use -/

/-- The `(?:(?:Product\s*(?:name|identifier))|Trade\s*name)\s*[:\-]?\s*(.+)`. -/
def tryProdIdAt (cs : List Char) : Option (List Char) :=
  let lab : Option (List Char) :=
    match (dropCI ("product".data) cs).bind (fun r =>
      let r1 := skipWS r
      match dropCI ("name".data) r1 with
      | some r2 => some r2
      | none => dropCI ("identifier".data) r1) with
    | some r2 => some r2
    | none => (dropCI ("trade".data) cs).bind (fun r => dropCI ("name".data) (skipWS r))
  lab.bind (sufCap (fun c => c ≠ '\n'))

/-- The `(safety\s+data\s+sheet|revision|version)` searched in the line. -/
def boilerplate_first_line (ln : String) : Bool :=
  (searchAll (fun cs =>
    match (dropCI ("safety".data) cs).bind (fun r =>
      (expectWS r).bind (fun r2 =>
        (dropCI ("data".data) r2).bind (fun r3 =>
          (expectWS r3).bind (dropCI ("sheet".data))))) with
    | some _ => some ()
    | none =>
      match dropCI ("revision".data) cs with
      | some _ => some ()
      | none => (dropCI ("version".data) cs).map (fun _ => ())) ln.data).isSome

/-- The `_extract_product_name`. -/
def extract_product_name (sect1 text : String) : Option String :=
  let globalScan : Option String :=
    (searchAll tryProdIdAt text.data).map (fun cap => String.mk (stripL cap))
  match searchAll tryProdIdAt sect1.data with
  | some cap => some (String.mk (stripL cap))
  | none =>
    if sect1 ≠ "" then
      let first_line := String.mk (stripL ((pyLines sect1.data).headD []))
      if (2 ≤ wordCount first_line ∧ wordCount first_line ≤ 12) ∧
          boilerplate_first_line first_line = false then
        some first_line
      else globalScan
    else globalScan

/-- The `(?:Recommended\s+use|Uses?\s+of\s+the\s+substance(?:/mixture)?|Product\s+use)\s*[:\-]?\s*(.+)`. -/
def tryProdUseAt (cs : List Char) : Option (List Char) :=
  let cont : List Char → List (List Char) := fun r =>
    match (expectWS r).bind (fun a =>
      (dropCI ("of".data) a).bind (fun b =>
        (expectWS b).bind (fun b2 =>
          (dropCI ("the".data) b2).bind (fun c2 =>
            (expectWS c2).bind (fun c3 =>
              dropCI ("substance".data) c3))))) with
    | some d =>
      (match dropCI ("/mixture".data) d with
       | some e => [e, d]
       | none => [d])
    | none => []
  let e1 : List (List Char) :=
    match (dropCI ("recommended".data) cs).bind (fun r =>
      (expectWS r).bind (dropCI ("use".data))) with
    | some r => [r]
    | none => []
  let e2 : List (List Char) :=
    match dropCI ("use".data) cs with
    | some r =>
      (match r with
       | c :: rest => if lowerC c = 's' then cont rest ++ cont r else cont r
       | [] => cont r)
    | none => []
  let e3 : List (List Char) :=
    match (dropCI ("product".data) cs).bind (fun r =>
      (expectWS r).bind (dropCI ("use".data))) with
    | some r => [r]
    | none => []
  firstSome (e1 ++ e2 ++ e3) (sufCap (fun c => c ≠ '\n'))

/-- The `_extract_product_use`. -/
def extract_product_use (sect1 : String) : Option String :=
  (searchAll tryProdUseAt sect1.data).map (fun cap => String.mk (stripL cap))

/-! ## GHS labelling, CAS numbers, shipping name -/

/-- The `(?:Signal\s+word[s]?)\s*[:\-]?\s*(Danger|Warning)`; the capture is
the original text of the alternative. -/
def trySignalAt (cs : List Char) : Option (List Char) :=
  (dropCI ("signal".data) cs).bind fun r =>
  (expectWS r).bind fun r1 =>
  (dropCI ("word".data) r1).bind fun r2 =>
  let ends : List (List Char) :=
    match r2 with
    | c :: rest => if lowerC c = 's' then [rest, r2] else [r2]
    | [] => [r2]
  firstSome ends (fun e =>
    let t := skipWsPunct e
    match dropCI ("danger".data) t with
    | some _ => some (t.take 6)
    | none =>
      match dropCI ("warning".data) t with
      | some _ => some (t.take 7)
      | none => none)

/-- The `_extract_signal_word`. -/
def extract_signal_word (sect2 : String) : Option String :=
  (searchAll trySignalAt sect2.data).map String.mk

def rstripDots (cs : List Char) : List Char :=
  (cs.reverse.dropWhile (fun c => c = '.')).reverse

/-- The `[:\-]?\s*([^.]+\.?)`: capture and the rest after it. -/
def pDescCap (cs : List Char) : Option (List Char × List Char) :=
  let okStart : List Char → Option (List Char × List Char) := fun cs2 =>
    match cs2 with
    | d :: _ =>
      if d ≠ '.' then
        let run := okRun (fun c => c ≠ '.') cs2
        let rest := cs2.drop run.length
        (match rest with
         | '.' :: r2 => some (run ++ ['.'], r2)
         | _ => some (run, rest))
      else none
    | [] => none
  let withPunct : Option (List Char × List Char) :=
    match cs with
    | c :: rest =>
      if c = ':' ∨ c = '-' then firstSome (wsSplits rest) okStart else none
    | [] => none
  match withPunct with
  | some x => some x
  | none => firstSome (wsSplits cs) okStart

/-- The `\b(P\d{3}[A-Z]?)\b[:\-]?\s*([^.]+\.?)` at one position: the code
and description captures plus the rest after the match. -/
def tryPCodeAt (cs : List Char) : Option ((List Char × List Char) × List Char) :=
  match cs with
  | c :: rest =>
    if lowerC c = 'p' ∧ 3 ≤ digSpan rest then
      let afterD := rest.drop 3
      let code3 := c :: rest.take 3
      let codeRest : Option (List Char × List Char) :=
        match afterD with
        | l :: rest2 =>
          if isAlphaC l ∧ boundaryAfterHere rest2 then some (code3 ++ [l], rest2)
          else if boundaryAfterHere afterD then some (code3, afterD) else none
        | [] => if boundaryAfterHere afterD then some (code3, afterD) else none
      codeRest.bind fun cr =>
        (pDescCap cr.2).map fun dr => ((cr.1, dr.1), dr.2)
    else none
  | [] => none

/-- The `finditer` loop for the precautionary statements. -/
def pFindGo (fuel : Nat) (prev : Option Char) (cs : List Char) (acc : List String) :
    List String :=
  match fuel with
  | 0 => acc.reverse
  | f + 1 =>
    match cs with
    | [] => acc.reverse
    | c :: rest =>
      match (if boundaryBefore prev then tryPCodeAt (c :: rest) else none) with
      | some m =>
        let stmt := String.mk (pyUpper m.1.1) ++ " " ++
          String.mk (rstripDots (stripL m.1.2))
        let matched := (c :: rest).take ((c :: rest).length - m.2.length)
        pFindGo f matched.getLast? m.2 (stmt :: acc)
      | none => pFindGo f (some c) rest acc

/-- The `_extract_precautionary_statements`. -/
def extract_precautionary_statements (sect2 : String) : List String :=
  pFindGo (sect2.data.length + 1) none sect2.data []

/-- The `\b(\d{2,7}-\d{2}-\d)\b` at one position: capture and rest. -/
def tryCASAt (cs : List Char) : Option (List Char × List Char) :=
  let r := digSpan cs
  if r < 2 ∨ 8 ≤ r then none
  else
    match expectC '-' (cs.drop r) with
    | none => none
    | some t1 =>
      (grabExactDigits 2 t1).bind fun p2 =>
      (expectC '-' p2.2).bind fun t2 =>
      match t2 with
      | d :: rest2 =>
        if isDigitC d ∧ boundaryAfterHere rest2 then
          some (cs.take r ++ '-' :: p2.1 ++ '-' :: [d], rest2)
        else none
      | [] => none

/-- The `finditer` loop for CAS numbers, de-duplicating in first-seen order. -/
def casFindGo (fuel : Nat) (prev : Option Char) (cs : List Char) (acc : List String) :
    List String :=
  match fuel with
  | 0 => acc
  | f + 1 =>
    match cs with
    | [] => acc
    | c :: rest =>
      match (if boundaryBefore prev then tryCASAt (c :: rest) else none) with
      | some m =>
        let s := String.mk m.1
        let acc2 := if acc.contains s then acc else acc ++ [s]
        casFindGo f m.1.getLast? m.2 acc2
      | none => casFindGo f (some c) rest acc

/-- The `_extract_cas_numbers`. -/
def extract_cas_numbers (text : String) : List String :=
  casFindGo (text.data.length + 1) none text.data []

/-- The `(?:Proper\s*Shipping\s*Name|PSN)\s*[:\-]?\s*([^,\n]+)`. -/
def tryShipNameAt (cs : List Char) : Option (List Char) :=
  let lab : Option (List Char) :=
    match (dropCI ("proper".data) cs).bind (fun r =>
      (dropCI ("shipping".data) (skipWS r)).bind (fun r2 =>
        dropCI ("name".data) (skipWS r2))) with
    | some r => some r
    | none => dropCI ("psn".data) cs
  lab.bind (sufCap vendOk)

/-- The `needle in line.upper()`. -/
def upperContains (needle : List Char) (hay : List Char) : Bool :=
  (searchAll (fun cs => dropCS needle cs) (pyUpper hay)).isSome

/-- The `re.sub(r"UN\d{4}\s*", "", line)` (case-sensitive). -/
def subUN4Go (fuel : Nat) : List Char → List Char
  | [] => []
  | c :: rest =>
    match fuel with
    | 0 => c :: rest
    | f + 1 =>
      match (dropCS ("UN".data) (c :: rest)).bind (fun r =>
        if 4 ≤ digSpan r then some (skipWS (r.drop 4)) else none) with
      | some r2 => subUN4Go f r2
      | none => c :: subUN4Go f rest

/-- The alcohol/N.O.S. fallback line heuristic. -/
def ship_fallback_line (ln : List Char) : Option String :=
  if upperContains ("ALCOHOL".data) ln ∧
      (upperContains ("N.O.S".data) ln ∨ upperContains ("NOS".data) ln) then
    let clean := stripL (subUN4Go (ln.length + 1) ln)
    if 6 ≤ clean.length then some (String.mk clean) else none
  else none

/-- The `_extract_proper_shipping_name`. -/
def extract_proper_shipping_name (sect14 : String) : Option String :=
  match searchAll tryShipNameAt sect14.data with
  | some cap => some (String.mk (stripL cap))
  | none => firstSome (pyLines sect14.data) ship_fallback_line

/-! ## Text acquisition (`extract_text_from_pdf`)

The three extractor collaborators are abstracted by their results for
the given bytes (they are re-run unchanged in the second pass); `ocr`
is what page recognition would yield, and `debug` the `DEBUG_SDS` gate.
The Boolean of the result records whether the recognition fallback was
actually performed (the gate inside `_ocr_fallback_pages` returns
before any recognition when debug is off). -/

def ocr_fallback_pages (debug : Bool) (ocr : Option String) : Option String :=
  if debug then ocr else none

def acqLoop1 : List (Option String) → Option String
  | [] => none
  | e :: rest =>
    match e with
    | some t => if t ≠ "" ∧ 800 ≤ t.length then some t else acqLoop1 rest
    | none => acqLoop1 rest

def acqLoop2 : List (Option String) → Option String
  | [] => none
  | e :: rest =>
    match e with
    | some t => if t ≠ "" then some t else acqLoop2 rest
    | none => acqLoop2 rest

/-- Python `or` on an optional text and a fallback. -/
def orTruthy (o : Option String) (t : String) : String :=
  match o with
  | some s => if s = "" then t else s
  | none => t

def extract_text_from_pdf (e1 e2 e3 : Option String) (debug : Bool)
    (ocr : Option String) : String × Bool :=
  match acqLoop1 [e1, e2, e3] with
  | some t => (t, false)
  | none =>
    match acqLoop2 [e1, e2, e3] with
    | some t =>
      if t.length < 800 then (orTruthy (ocr_fallback_pages debug ocr) t, debug)
      else (t, false)
    | none => (orTruthy (ocr_fallback_pages debug ocr) "", debug)

def bigEnough (t : String) : Bool := decide (t ≠ "" ∧ 800 ≤ t.length)

def nonEmptyS (t : String) : Bool := decide (t ≠ "")

/-- Declarative description of the acquisition pipeline. -/
def extract_text_spec (e1 e2 e3 : Option String) (debug : Bool)
    (ocr : Option String) : String × Bool :=
  let results := List.filterMap id [e1, e2, e3]
  match results.find? bigEnough with
  | some t => (t, false)
  | none =>
    match results.find? nonEmptyS with
    | some t =>
      if t.length < 800 then (orTruthy (if debug then ocr else none) t, debug)
      else (t, false)
    | none => (orTruthy (if debug then ocr else none) "", debug)

/-! ## The assembled record and the core parse -/

def collapseWSGo (prevWS : Bool) : List Char → List Char
  | [] => []
  | c :: cs =>
      if isWS c then
        (if prevWS then collapseWSGo true cs else ' ' :: collapseWSGo true cs)
      else c :: collapseWSGo false cs

/-- The `_trim_excerpt`: collapse whitespace runs, strip, cap at 900. -/
def trim_excerpt (s : String) : String :=
  String.mk ((stripL (collapseWSGo false s.data)).take 900)

structure ParsedSds where
  product_id : Int
  vendor : Option String
  product_name : Option String
  product_use : Option String
  issue_date : Option String
  hazardous_substance : Option Bool
  hazardous_confidence : ℚ
  hazard_statements : List String
  dangerous_good : Option Bool
  dangerous_goods_confidence : ℚ
  dangerous_goods_class : Option String
  packing_group : Option String
  subsidiary_risks : Option String
  un_number : Option String
  signal_word : Option String
  precautionary_statements : List String
  cas_numbers : List String
  proper_shipping_name : Option String
  section_1_excerpt : Option String
  section_2_excerpt : Option String
  section_14_excerpt : Option String
  section_16_excerpt : Option String
deriving DecidableEq, Repr

/-- The `_parse_core` from the acquired text onwards (byte acquisition and
the debug artifact write are external collaborators); `today` is the
parse time used by the issue-date resolver. -/
def parse_core_text (today : PDate) (text : String) (product_id : Int) : ParsedSds :=
  let t : String := String.mk (text.data.map (fun c => if c = '\x00' then ' ' else c))
  let sections := split_sections t
  let sect1 := sectGet sections ("1")
  let sect2 := sectGet sections ("2")
  let sect14 := sectGet sections ("14")
  let sect16 := sectGet sections ("16")
  let hazard_statements := extract_hazard_statements sect2
  let hz := is_hazardous sect2 hazard_statements
  let dg := dangerous_goods_tuple_improved sect14
  { product_id := product_id
    vendor := extract_vendor_improved sect1 sect16 t
    product_name := extract_product_name sect1 t
    product_use := extract_product_use sect1
    issue_date := resolve_issue_date today sect16 t
    hazardous_substance := some hz.1
    hazardous_confidence := hz.2
    hazard_statements := hazard_statements
    dangerous_good := some dg.is_dg
    dangerous_goods_confidence := dg.confidence
    dangerous_goods_class := dg.dg_class
    packing_group := dg.packing_group
    subsidiary_risks := dg.subsidiary_risks
    un_number := dg.un_number
    signal_word := extract_signal_word sect2
    precautionary_statements := extract_precautionary_statements sect2
    cas_numbers := extract_cas_numbers t
    proper_shipping_name := extract_proper_shipping_name sect14
    section_1_excerpt := if sect1 ≠ "" then some (trim_excerpt sect1) else none
    section_2_excerpt := if sect2 ≠ "" then some (trim_excerpt sect2) else none
    section_14_excerpt := if sect14 ≠ "" then some (trim_excerpt sect14) else none
    section_16_excerpt := if sect16 ≠ "" then some (trim_excerpt sect16) else none }

/-! ## General lemmas about the searchers -/

theorem firstSome_eq_some {α β : Type} (xs : List α) (f : α → Option β) (b : β)
    (h : firstSome xs f = some b) : ∃ x ∈ xs, f x = some b := by
  induction xs with
  | nil => simp [firstSome] at h
  | cons x rest ih =>
    rw [firstSome] at h
    cases hx : f x with
    | some b2 =>
      rw [hx] at h
      exact ⟨x, List.mem_cons_self x rest, by simpa [hx] using h⟩
    | none =>
      rw [hx] at h
      obtain ⟨y, hy, hfy⟩ := ih h
      exact ⟨y, List.mem_cons_of_mem x hy, hfy⟩

theorem searchFrom_eq_some {α : Type} (f : Option Char → List Char → Option α) :
    ∀ (prev : Option Char) (cs : List Char) (b : α),
      searchFrom f prev cs = some b → ∃ p t, f p t = some b := by
  intro prev cs
  induction cs generalizing prev with
  | nil => intro b h; simp [searchFrom] at h
  | cons c rest ih =>
    intro b h
    rw [searchFrom] at h
    cases hx : f prev (c :: rest) with
    | some b2 => exact ⟨prev, c :: rest, by rw [hx]; simpa [hx] using h⟩
    | none =>
      rw [hx] at h
      exact ih (some c) b h

theorem digSpan_le_length : ∀ cs : List Char, digSpan cs ≤ cs.length := by
  intro cs
  induction cs with
  | nil => simp [digSpan]
  | cons c rest ih =>
    rw [digSpan]
    split
    · simpa using Nat.succ_le_succ ih
    · exact Nat.zero_le _

theorem take_digSpan_all : ∀ (cs : List Char) (k : Nat), k ≤ digSpan cs →
    (cs.take k).all isDigitC = true := by
  intro cs
  induction cs with
  | nil => intro k _; simp [List.take]
  | cons c rest ih =>
    intro k hk
    rw [digSpan] at hk
    cases k with
    | zero => simp
    | succ k2 =>
      by_cases hc : isDigitC c
      · rw [if_pos hc] at hk
        simpa [List.take, List.all_cons, hc] using ih k2 (Nat.le_of_succ_le_succ hk)
      · rw [if_neg hc] at hk
        exact absurd hk (by simp)

/-! ## C3 -/

/-- C3: for every section-2 body and extracted hazard-statement list the
hazardous-substance classification returns exactly (false, 1.0) on an
explicit negation phrase, else (true, 0.9) on a non-empty statement
list, else (true, 0.5) on a generic hazard keyword, else (false, 0.2). -/
theorem c3_hazardous_classification (sect2 : String) (st : List String) :
    (haz_none_present sect2 = true → is_hazardous sect2 st = (false, 1)) ∧
    (haz_none_present sect2 = false → st ≠ [] →
      is_hazardous sect2 st = (true, mkRat 9 10)) ∧
    (haz_none_present sect2 = false → st = [] → haz_keyword_present sect2 = true →
      is_hazardous sect2 st = (true, mkRat 5 10)) ∧
    (haz_none_present sect2 = false → st = [] → haz_keyword_present sect2 = false →
      is_hazardous sect2 st = (false, mkRat 2 10)) := by
  refine ⟨fun h1 => ?_, fun h1 h2 => ?_, fun h1 h2 h3 => ?_, fun h1 h2 h3 => ?_⟩
  · simp [is_hazardous, h1]
  · cases st with
    | nil => exact absurd rfl h2
    | cons a l => simp [is_hazardous, h1]
  · subst h2; simp [is_hazardous, h1, h3]
  · subst h2; simp [is_hazardous, h1, h3]

/-- C3 witness at the example phrase given by the specification. -/
theorem c3_witness :
    is_hazardous ("does not meet the criteria for classification") [] = (false, 1) :=
  (c3_hazardous_classification ("does not meet the criteria for classification") []).1
    (by decide)

/-! ## C2 -/

theorem lowerC_of_ws (c : Char) (h : isWS c = true) : lowerC c = c := by
  rw [isWS] at h
  simp only [Bool.or_eq_true, decide_eq_true_eq] at h
  rcases h with ((((h | h) | h) | h) | h) | h <;> subst h <;> decide

theorem tryDgNoneAt_head (c : Char) (rest : List Char)
    (h : (tryDgNoneAt (c :: rest)).isSome = true) : isWS c = false := by
  by_cases hn : lowerC c = 'n'
  · by_cases hw : isWS c
    · exfalso
      have hcn : c = 'n' := by rw [← lowerC_of_ws c hw, hn]
      subst hcn
      exact absurd hw (by decide)
    · simpa using hw
  · exfalso
    rw [tryDgNoneAt] at h
    simp only [dropCI, String.data] at h
    rw [if_neg ?_] at h
    · simp at h
    · simpa using hn

theorem searchDgNone_not_blank_aux :
    ∀ (cs : List Char) (prev : Option Char),
      (searchFrom (fun _ t => tryDgNoneAt t) prev cs).isSome = true →
      cs.all isWS = false := by
  intro cs
  induction cs with
  | nil => intro prev h; simp [searchFrom] at h
  | cons c rest ih =>
    intro prev h
    rw [searchFrom] at h
    cases hx : tryDgNoneAt (c :: rest) with
    | some u =>
      have := tryDgNoneAt_head c rest (by simp [hx])
      simp [List.all_cons, this]
    | none =>
      rw [hx] at h
      have := ih (some c) h
      simp [List.all_cons, this]

theorem searchDgNone_not_blank (cs : List Char) (h : searchDgNone cs = true) :
    cs.all isWS = false := by
  rw [searchDgNone, searchAll] at h
  exact searchDgNone_not_blank_aux cs none h

/-- The confidence formula stated by the claim, as a function of which
transport fields are present in the result. -/
def dgConfClaim (r : DgTuple) : ℚ :=
  let n := (if r.un_number.isSome then 1 else 0) + (if r.dg_class.isSome then 1 else 0) +
    (if r.packing_group.isSome then 1 else 0)
  if r.un_number.isSome ∧ r.dg_class.isSome then 1
  else if 2 ≤ n then mkRat 8 10
  else if n = 1 then mkRat 6 10
  else 0

/-- C2: for every section-14 body, an explicit negation phrase yields
(false, all transport fields null, confidence 1.0); otherwise the flag
is true exactly when a UN number, class or packing group was extracted,
and the confidence is 1.0 with both UN number and class, 0.8 with at
least two of the three signals (but not both UN and class), 0.6 with
exactly one, and 0.0 with none. -/
theorem c2_dangerous_goods (sect14 : String) :
    (dg_none_present sect14 = true →
      dangerous_goods_tuple_improved sect14 = ⟨false, none, none, none, 1, none⟩) ∧
    (dg_none_present sect14 = false →
      ((dangerous_goods_tuple_improved sect14).is_dg = true ↔
        ((dangerous_goods_tuple_improved sect14).un_number ≠ none ∨
         (dangerous_goods_tuple_improved sect14).dg_class ≠ none ∨
         (dangerous_goods_tuple_improved sect14).packing_group ≠ none)) ∧
      (dangerous_goods_tuple_improved sect14).confidence =
        dgConfClaim (dangerous_goods_tuple_improved sect14)) := by
  constructor
  · intro h
    have hb : isBlankL sect14.data = false := by
      rw [isBlankL]
      exact searchDgNone_not_blank sect14.data (by rw [dg_none_present] at h; exact h)
    rw [dangerous_goods_tuple_improved, if_neg (by simp [hb]), if_pos h]
  · intro h
    rw [dangerous_goods_tuple_improved]
    by_cases hb : isBlankL sect14.data
    · rw [if_pos hb]
      constructor
      · simp
      · simp [dgConfClaim]
    · rw [if_neg hb, if_neg (by simp [h])]
      cases hu : searchUN sect14.data <;>
        cases hc : searchClass sect14.data <;>
          cases hp : searchPG sect14.data <;>
            simp [dgConfClaim]

/-- C2 witness: a body with both a UN number and a class scores 1.0. -/
theorem c2_witness :
    (dangerous_goods_tuple_improved ("UN 1090 Class 3")).confidence = 1 := by
  have h := (c2_dangerous_goods ("UN 1090 Class 3")).2 (by decide)
  exact h.2.trans (by decide)

/-! ## C9 -/

theorem hazConf_bounds (s2 : String) (st : List String) :
    0 ≤ (is_hazardous s2 st).2 ∧ (is_hazardous s2 st).2 ≤ 1 := by
  rw [is_hazardous]
  split_ifs <;> constructor <;> decide

theorem dgConf_bounds (s14 : String) :
    0 ≤ (dangerous_goods_tuple_improved s14).confidence ∧
      (dangerous_goods_tuple_improved s14).confidence ≤ 1 := by
  by_cases hb : isBlankL s14.data
  · rw [dangerous_goods_tuple_improved, if_pos hb]; constructor <;> decide
  · by_cases hn : dg_none_present s14
    · rw [dangerous_goods_tuple_improved, if_neg hb, if_pos hn]; constructor <;> decide
    · rw [dangerous_goods_tuple_improved, if_neg hb, if_neg hn]
      dsimp only
      split_ifs <;> constructor <;> decide

/-- C9: every parsed record has both confidence scores inside the unit
interval. -/
theorem c9_confidences_unit_interval (today : PDate) (text : String) (pid : Int) :
    (0 ≤ (parse_core_text today text pid).hazardous_confidence ∧
      (parse_core_text today text pid).hazardous_confidence ≤ 1) ∧
    (0 ≤ (parse_core_text today text pid).dangerous_goods_confidence ∧
      (parse_core_text today text pid).dangerous_goods_confidence ≤ 1) := by
  rw [parse_core_text]
  dsimp only
  exact ⟨hazConf_bounds _ _, dgConf_bounds _⟩

/-! ## C10 -/

theorem grabDigits34_shape (cs out : List Char) (h : grabDigits34 cs = some out) :
    (out.length = 3 ∨ out.length = 4) ∧ out.all isDigitC = true := by
  rw [grabDigits34] at h
  by_cases h1 : digSpan cs < 3 ∨ 5 ≤ digSpan cs
  · rw [if_pos h1] at h; exact absurd h (by simp)
  · rw [if_neg h1] at h
    by_cases h2 : boundaryAfterHere (cs.drop (digSpan cs)) = true
    · rw [if_pos h2] at h
      have hout : out = cs.take (digSpan cs) := by
        have := h.symm
        simpa using this
      subst hout
      push_neg at h1
      refine ⟨?_, take_digSpan_all cs (digSpan cs) (Nat.le_refl _)⟩
      have hlen : (cs.take (digSpan cs)).length = digSpan cs := by
        rw [List.length_take]
        exact Nat.min_eq_left (digSpan_le_length cs)
      rw [hlen]
      omega
    · rw [if_neg h2] at h
      exact absurd h (by simp)

theorem tryUNAt_shape (cs out : List Char) (h : tryUNAt cs = some out) :
    (out.length = 3 ∨ out.length = 4) ∧ out.all isDigitC = true := by
  rw [tryUNAt] at h
  cases h0 : dropCI ("un".data) cs with
  | none => rw [h0] at h; exact absurd h (by simp)
  | some r =>
    rw [h0] at h
    dsimp only at h
    cases h1 : firstSome (unNoLabelEnds (skipWS r)) (fun e => grabDigits34 (skipWsPunct e)) with
    | some d =>
      rw [h1] at h
      obtain ⟨e, _, he⟩ := firstSome_eq_some _ _ _ h1
      have hd : d = out := by simpa using h
      subst hd
      exact grabDigits34_shape _ _ he
    | none =>
      rw [h1] at h
      cases h2 : dropCI ("/id".data) r with
      | none => rw [h2] at h; exact absurd h (by simp)
      | some r2 =>
        rw [h2] at h
        dsimp only [Option.bind] at h
        obtain ⟨e, _, he⟩ := firstSome_eq_some _ _ _ h
        exact grabDigits34_shape _ _ he

theorem searchUN_shape (cs : List Char) (s : String) (h : searchUN cs = some s) :
    (s.length = 3 ∨ s.length = 4) ∧ s.data.all isDigitC = true := by
  rw [searchUN] at h
  cases h0 : searchFrom (fun prev t => if boundaryBefore prev then tryUNAt t else none) none cs with
  | none => rw [h0] at h; exact absurd h (by simp)
  | some out =>
    rw [h0] at h
    have hs : s = String.mk out := by
      have := h.symm
      simpa using this
    subst hs
    obtain ⟨p, t, hpt⟩ := searchFrom_eq_some _ none cs out h0
    have hout : tryUNAt t = some out := by
      by_cases hbd : boundaryBefore p = true
      · simpa [hbd] using hpt
      · rw [if_neg hbd] at hpt; exact absurd hpt (by simp)
    exact tryUNAt_shape t out hout

theorem dgt_un_shape (s14 s : String)
    (h : (dangerous_goods_tuple_improved s14).un_number = some s) :
    (s.length = 3 ∨ s.length = 4) ∧ s.data.all isDigitC = true := by
  rw [dangerous_goods_tuple_improved] at h
  by_cases hb : isBlankL s14.data
  · rw [if_pos hb] at h; exact absurd h (by simp)
  · rw [if_neg hb] at h
    by_cases hn : dg_none_present s14
    · rw [if_pos hn] at h; exact absurd h (by simp)
    · rw [if_neg hn] at h
      dsimp only at h
      exact searchUN_shape _ _ h

/-- C10: any non-null `un_number` of a parsed record is a string of
exactly three or four decimal digits (the extractor pattern accepts
three-digit values too, not only four-digit UN numbers). -/
theorem c10_un_number_shape (today : PDate) (text : String) (pid : Int) (s : String)
    (h : (parse_core_text today text pid).un_number = some s) :
    (s.length = 3 ∨ s.length = 4) ∧ s.data.all isDigitC = true := by
  rw [parse_core_text] at h
  dsimp only at h
  exact dgt_un_shape _ _ h

/-- C10 witness: a three-digit value really is extracted and satisfies
the shape. -/
theorem c10_witness :
    (parse_core_text ⟨2026, 1, 1⟩ ("14. Transport\nUN: 350") 1).un_number = some ("350") ∧
    ((("350") : String).length = 3 ∨ (("350") : String).length = 4) :=
  ⟨by decide,
   (c10_un_number_shape ⟨2026, 1, 1⟩ ("14. Transport\nUN: 350") 1 ("350") (by decide)).1⟩

/-! ## C4 -/

def keyShapeP (k : String) : Prop :=
  (k.length = 1 ∨ k.length = 2) ∧ k.data.all isDigitC = true

theorem take_min2_shape (cs : List Char) (h0 : digSpan cs ≠ 0) :
    keyShapeP (String.mk (cs.take (min (digSpan cs) 2))) := by
  constructor
  · have hlen : (cs.take (min (digSpan cs) 2)).length = min (digSpan cs) 2 := by
      rw [List.length_take]
      exact Nat.min_eq_left (Nat.le_trans (Nat.min_le_left _ _) (digSpan_le_length cs))
    have : String.length (String.mk (cs.take (min (digSpan cs) 2))) =
        min (digSpan cs) 2 := hlen
    rw [this]
    omega
  · exact take_digSpan_all cs _ (Nat.min_le_left _ _)

theorem numOrWordAt_shape (cs : List Char) (k : String) (r : List Char)
    (h : numOrWordAt cs = some (k, r)) : keyShapeP k := by
  rw [numOrWordAt] at h
  by_cases h0 : digSpan cs ≠ 0
  · rw [if_pos h0] at h
    have hk : k = String.mk (cs.take (min (digSpan cs) 2)) := by
      have := congrArg (fun o => Option.map Prod.fst o) h
      simpa using this.symm
    rw [hk]
    exact take_min2_shape cs h0
  · rw [if_neg h0] at h
    obtain ⟨p, hp, hfp⟩ := firstSome_eq_some _ _ _ h
    have hall : ∀ q ∈ sectionWordKeys,
        (q.2.length = 1 ∨ q.2.length = 2) ∧ q.2.data.all isDigitC = true := by decide
    have hk : k = p.2 := by
      cases hq : dropCI p.1 cs with
      | none => rw [hq] at hfp; exact absurd hfp (by simp)
      | some rest => rw [hq] at hfp; exact (by simpa using hfp.symm : _ ∧ _).1
    rw [hk]
    exact hall p hp

theorem headerNumAt_shape (cs : List Char) (k : String) (r : List Char)
    (h : headerNumAt cs = some (k, r)) : keyShapeP k := by
  rw [headerNumAt] at h
  cases h0 : (dropCI ("section".data) (skipWS cs)).bind
      (fun r2 => numOrWordAt (skipWS r2)) with
  | some x =>
    rw [h0] at h
    cases h1 : dropCI ("section".data) (skipWS cs) with
    | none => rw [h1] at h0; exact absurd h0 (by simp [Option.bind])
    | some r2 =>
      rw [h1] at h0
      have h2 : numOrWordAt (skipWS r2) = some x := by simpa [Option.bind] using h0
      have hx : x = (k, r) := by simpa using h
      rw [hx] at h2
      exact numOrWordAt_shape _ _ _ h2
  | none =>
    rw [h0] at h
    exact numOrWordAt_shape _ _ _ h

theorem headerAt_shape (cs : List Char) (k : String) (r : List Char)
    (h : headerAt cs = some (k, r)) : keyShapeP k := by
  rw [headerAt] at h
  cases h0 : headerNumAt cs with
  | none => rw [h0] at h; exact absurd h (by simp)
  | some x =>
    rw [h0] at h
    rcases x with ⟨kx, rx⟩
    cases rx with
    | nil =>
      have h2 : ((kx, ([] : List Char)) : String × List Char) = (k, r) := by
        simpa using h
      have hk : kx = k := congrArg Prod.fst h2
      rw [← hk]
      exact headerNumAt_shape cs kx [] h0
    | cons c rest =>
      by_cases hc : c = '.' ∨ c = ':' ∨ c = ')'
      · have h2 : ((kx, rest) : String × List Char) = (k, r) := by
          simpa [hc] using h
        have hk : kx = k := congrArg Prod.fst h2
        rw [← hk]
        exact headerNumAt_shape cs kx (c :: rest) h0
      · have h2 : ((kx, c :: rest) : String × List Char) = (k, r) := by
          simpa [hc] using h
        have hk : kx = k := congrArg Prod.fst h2
        rw [← hk]
        exact headerNumAt_shape cs kx (c :: rest) h0

theorem updateSec_mem (m : List (String × String)) (k b : String)
    (P : String → Prop) (hm : ∀ kv ∈ m, P kv.1) (hk : P k) :
    ∀ kv ∈ updateSec m k b, P kv.1 := by
  intro kv hkv
  rw [updateSec] at hkv
  cases h0 : lookupSec m k with
  | none =>
    rw [h0] at hkv
    rcases List.mem_append.mp hkv with hin | hin
    · exact hm kv hin
    · have : kv = (k, b) := by simpa using hin
      rw [this]
      exact hk
  | some old =>
    rw [h0] at hkv
    dsimp only at hkv
    by_cases hlt : old.length < b.length
    · rw [if_pos hlt] at hkv
      obtain ⟨orig, ho, heq⟩ := List.mem_map.mp hkv
      by_cases horig : orig.1 = k
      · rw [if_pos horig] at heq
        rw [← heq]
        exact hk
      · rw [if_neg horig] at heq
        rw [← heq]
        exact hm orig ho
    · rw [if_neg hlt] at hkv
      exact hm kv hkv

theorem scanSections_keys (fuel : Nat) :
    ∀ (acc : List (String × String)) (atStart : Bool) (cs : List Char),
      (∀ kv ∈ acc, keyShapeP kv.1) →
      ∀ kv ∈ scanSections fuel acc atStart cs, keyShapeP kv.1 := by
  induction fuel with
  | zero =>
    intro acc atStart cs hacc kv hkv
    rw [scanSections] at hkv
    exact hacc kv hkv
  | succ f ih =>
    intro acc atStart cs hacc kv hkv
    rw [scanSections.eq_def] at hkv
    dsimp only at hkv
    cases cs with
    | nil => exact hacc kv hkv
    | cons c rest =>
      dsimp only at hkv
      by_cases hA : atStart = true
      · rw [if_pos hA] at hkv
        dsimp only at hkv
        cases hH : headerAt (c :: rest) with
        | none =>
          rw [hH] at hkv
          exact ih acc false rest hacc kv hkv
        | some kr =>
          rw [hH] at hkv
          rcases kr with ⟨kk, rr⟩
          exact ih _ false _ (updateSec_mem acc kk _ keyShapeP hacc
            (headerAt_shape _ _ _ hH)) kv hkv
      · rw [if_neg hA] at hkv
        by_cases hc : c = '\n'
        · rw [if_pos hc] at hkv
          dsimp only at hkv
          cases hH : headerAt rest with
          | none =>
            rw [hH] at hkv
            exact ih acc false rest hacc kv hkv
          | some kr =>
            rw [hH] at hkv
            rcases kr with ⟨kk, rr⟩
            exact ih _ false _ (updateSec_mem acc kk _ keyShapeP hacc
              (headerAt_shape _ _ _ hH)) kv hkv
        · rw [if_neg hc] at hkv
          dsimp only at hkv
          exact ih acc false rest hacc kv hkv

/-- C4 (amended): every key the segmenter produces is the detected
header number — a string of one or two decimal digits (number words are
mapped to their digit strings); nothing constrains the keys to the range
1–16 and undetected sections are simply absent. -/
theorem c4_section_keys (text : String) (kv : String × String)
    (h : kv ∈ split_sections text) :
    (kv.1.length = 1 ∨ kv.1.length = 2) ∧ kv.1.data.all isDigitC = true := by
  rw [split_sections] at h
  exact scanSections_keys _ [] true text.data (by simp) kv h

/-- C4 counterexample: on empty text no key at all is produced (so the
keys of the mapping are not "exactly 1–16 with empty bodies"), and a header
numbered 17 produces the key "17", outside 1–16. -/
theorem c4_counterexample :
    split_sections ("") = [] ∧
    lookupSec (split_sections ("17. Foo")) ("17") = some ("Foo") := by decide

/-- C4 witness for the amended key-shape theorem. -/
theorem c4_witness :
    ((("1"), ("Identification")) ∈ split_sections ("1. Identification")) ∧
    (((("1") : String).length = 1 ∨ (("1") : String).length = 2) ∧
      (("1") : String).data.all isDigitC = true) :=
  ⟨by decide, c4_section_keys ("1. Identification") (("1"), ("Identification")) (by decide)⟩

/-! ## C5 -/

theorem acqLoop1_eq (xs : List (Option String)) :
    acqLoop1 xs = (xs.filterMap id).find? bigEnough := by
  induction xs with
  | nil => rfl
  | cons e rest ih =>
    cases e with
    | none => simpa [acqLoop1] using ih
    | some t =>
      rw [acqLoop1]
      rw [show List.filterMap id (some t :: rest) = t :: List.filterMap id rest from by
        simp]
      by_cases h : t ≠ "" ∧ 800 ≤ t.length
      · rw [if_pos h, List.find?_cons_of_pos _ (by simpa [bigEnough] using h)]
      · rw [if_neg h, List.find?_cons_of_neg _ (by simpa [bigEnough] using h)]
        exact ih

theorem acqLoop2_eq (xs : List (Option String)) :
    acqLoop2 xs = (xs.filterMap id).find? nonEmptyS := by
  induction xs with
  | nil => rfl
  | cons e rest ih =>
    cases e with
    | none => simpa [acqLoop2] using ih
    | some t =>
      rw [acqLoop2]
      rw [show List.filterMap id (some t :: rest) = t :: List.filterMap id rest from by
        simp]
      by_cases h : t ≠ ""
      · rw [if_pos h, List.find?_cons_of_pos _ (by simpa [nonEmptyS] using h)]
      · rw [if_neg h, List.find?_cons_of_neg _ (by simpa [nonEmptyS] using h)]
        exact ih

/-- C5 (amended): the acquisition pipeline accepts the first extractor
result of length at least 800; otherwise it takes the first non-empty
result, but when that result is shorter than 800 characters it first
attempts the (debug-gated) recognition fallback and prefers its
non-empty output; only when every extractor yields nothing is
recognition the last resort, and the gate means recognition runs
exactly in debug mode on those paths — in non-debug mode the short text
or empty text is returned without recognition. -/
theorem c5_acquisition_pipeline (e1 e2 e3 : Option String) (debug : Bool)
    (ocr : Option String) :
    extract_text_from_pdf e1 e2 e3 debug ocr = extract_text_spec e1 e2 e3 debug ocr := by
  rw [extract_text_from_pdf, extract_text_spec, acqLoop1_eq, acqLoop2_eq]
  simp only [ocr_fallback_pages]

/-- C5 counterexample: with a first extractor yielding non-empty text
("x") and debug enabled, recognition is performed and its output is
returned — the claim says the fallback runs only when all extractors
produce nothing, and that the first non-empty result is returned. -/
theorem c5_counterexample :
    extract_text_from_pdf (some ("x")) none none true (some ("recognised")) =
      (("recognised"), true) := by decide

/-! ## C6 -/

theorem headerCaptureGo_no_header (lines : List (List Char))
    (h : lines.all (fun ln => ! hazHeaderIn ln) = true) :
    headerCaptureGo false lines = [] := by
  induction lines with
  | nil => rfl
  | cons ln rest ih =>
    rw [List.all_cons] at h
    have h1 : hazHeaderIn ln = false := by
      have := (Bool.and_eq_true _ _).mp h |>.1
      simpa using this
    have h2 := (Bool.and_eq_true _ _).mp h |>.2
    rw [headerCaptureGo, if_neg (by simp [h1]), if_neg (by simp)]
    exact ih h2

/-- C6 (amended): the extractor has no synthetic "no classification"
entry: when no line matches the H-code pattern it returns the lines
captured after a "Hazard Statements" header, and in the absence of such
a header line — whatever negation phrases the body contains — it
returns the empty list. -/
theorem c6_no_synthetic_entry (sect2 : String) (h : phase1_statements sect2 = []) :
    extract_hazard_statements sect2 = header_capture_statements (pyLines sect2.data) ∧
    ((pyLines sect2.data).all (fun ln => ! hazHeaderIn ln) = true →
      extract_hazard_statements sect2 = []) := by
  have he : extract_hazard_statements sect2 =
      header_capture_statements (pyLines sect2.data) := by
    rw [extract_hazard_statements, h]
    simp
  refine ⟨he, fun hall => ?_⟩
  rw [he, header_capture_statements]
  exact headerCaptureGo_no_header _ hall

/-- C6 counterexample: a section-2 body with no H-code line that does
contain an explicit negation phrase yields the empty list, not a single
synthetic entry. -/
theorem c6_counterexample :
    extract_hazard_statements ("Not classified as hazardous") = [] ∧
    haz_none_present ("Not classified as hazardous") = true := by decide

/-- C6 witness for the amended theorem. -/
theorem c6_witness : extract_hazard_statements ("See section 11") = [] :=
  (c6_no_synthetic_entry ("See section 11") (by decide)).2 (by decide)

/-! ## C7 -/

/-- C7 (amended): a parse of empty acquired text returns a record — no
exception — with every optional string field null and both list fields
empty; the two boolean classification fields are false (not null), with
confidences 0.2 and 0.0. -/
theorem c7_empty_text_record (today : PDate) (pid : Int) :
    parse_core_text today ("") pid =
      ⟨pid, none, none, none, none, some false, mkRat 2 10, [], some false, 0,
       none, none, none, none, none, [], [], none, none, none, none, none⟩ := rfl

/-- C7 counterexample: on empty text the optional boolean fields are
`some false`, not null as the claim states for every optional field. -/
theorem c7_counterexample :
    (parse_core_text ⟨2026, 1, 1⟩ ("") 0).hazardous_substance = some false ∧
    (parse_core_text ⟨2026, 1, 1⟩ ("") 0).dangerous_good = some false := by decide

/-! ## C8 -/

theorem vendorCheck16_some (x v : String) (h : vendorCheck16 x = some v) :
    v = x ∧ 2 ≤ wordCount v ∧ contact_token16 v = false := by
  rw [vendorCheck16] at h
  by_cases hc : x ≠ "" ∧ contact_token16 x = false ∧ 2 ≤ wordCount x
  · rw [if_pos hc] at h
    have hv : x = v := by simpa using h
    subst hv
    exact ⟨rfl, hc.2.2, hc.2.1⟩
  · rw [if_neg hc] at h
    exact absurd h (by simp)

theorem vendorCheckStd_some (x v : String) (h : vendorCheckStd x = some v) :
    v = x ∧ 2 ≤ wordCount v ∧ contact_token v = false := by
  rw [vendorCheckStd] at h
  by_cases hc : x ≠ "" ∧ contact_token x = false ∧ 2 ≤ wordCount x
  · rw [if_pos hc] at h
    have hv : x = v := by simpa using h
    subst hv
    exact ⟨rfl, hc.2.2, hc.2.1⟩
  · rw [if_neg hc] at h
    exact absurd h (by simp)

theorem vendor_p1_filters (s16 v : String) (h : vendor_p1 s16 = some v) :
    2 ≤ wordCount v ∧ contact_token16 v = false := by
  rw [vendor_p1] at h
  have hsecond : ∀ (hs : (match searchAll tryPrep2At s16.data with
      | some cap2 => vendorCheck16 (String.mk (stripL cap2))
      | none => none) = some v), 2 ≤ wordCount v ∧ contact_token16 v = false := by
    intro hs
    cases h2 : searchAll tryPrep2At s16.data with
    | some cap2 =>
      rw [h2] at hs
      exact ((vendorCheck16_some _ _ hs).2)
    | none => rw [h2] at hs; exact absurd hs (by simp)
  cases h1 : searchAll tryPrep1At s16.data with
  | some cap =>
    rw [h1] at h
    dsimp only at h
    cases hc : vendorCheck16 (String.mk (stripL cap)) with
    | some v2 =>
      rw [hc] at h
      have hv : v2 = v := by simpa using h
      subst hv
      exact (vendorCheck16_some _ _ hc).2
    | none =>
      rw [hc] at h
      exact hsecond h
  | none =>
    rw [h1] at h
    exact hsecond h

theorem vendor_p2_filters (s1 ft v : String) (h : vendor_p2 s1 ft = some v) :
    2 ≤ wordCount v ∧ contact_token v = false := by
  rw [vendor_p2] at h
  have hfull : ∀ (hs : (match searchAll trySupplierLabAt ft.data with
      | some cap2 => vendorCheckStd (String.mk (stripL cap2))
      | none => none) = some v), 2 ≤ wordCount v ∧ contact_token v = false := by
    intro hs
    cases h2 : searchAll trySupplierLabAt ft.data with
    | some cap2 =>
      rw [h2] at hs
      exact ((vendorCheckStd_some _ _ hs).2)
    | none => rw [h2] at hs; exact absurd hs (by simp)
  cases h1 : searchAll trySupplierLabAt s1.data with
  | some cap =>
    rw [h1] at h
    dsimp only at h
    cases hc : vendorCheckStd (String.mk (stripL cap)) with
    | some v2 =>
      rw [hc] at h
      have hv : v2 = v := by simpa using h
      subst hv
      exact (vendorCheckStd_some _ _ hc).2
    | none =>
      rw [hc] at h
      exact hfull h
  | none =>
    rw [h1] at h
    exact hfull h

theorem p3Loop_weak (lines : List String) (v : String) (h : p3Loop lines = some v) :
    contact_token v = false ∨ 2 ≤ wordCount v := by
  induction lines with
  | nil => simp [p3Loop] at h
  | cons ln rest ih =>
    rw [p3Loop] at h
    by_cases hl : lineLabelCheck ln = true
    · rw [if_pos hl] at h
      dsimp only at h
      have hnext : ∀ (hs : (match rest.head? with
          | some nl => if nl ≠ "" ∧ 2 ≤ wordCount nl then some nl else p3Loop rest
          | none => p3Loop rest) = some v),
          contact_token v = false ∨ 2 ≤ wordCount v := by
        intro hs
        cases hh : rest.head? with
        | some nl =>
          rw [hh] at hs
          dsimp only at hs
          by_cases hn : nl ≠ "" ∧ 2 ≤ wordCount nl
          · rw [if_pos hn] at hs
            have hv : nl = v := by simpa using hs
            subst hv
            exact Or.inr hn.2
          · rw [if_neg hn] at hs
            exact ih hs
        | none =>
          rw [hh] at hs
          dsimp only at hs
          exact ih hs
      cases hm : m2Cand ln with
      | some cand =>
        rw [hm] at h
        dsimp only at h
        by_cases hc : cand ≠ "" ∧ contact_token cand = false
        · rw [if_pos hc] at h
          dsimp only at h
          have hv : cand = v := by simpa using h
          subst hv
          exact Or.inl hc.2
        · rw [if_neg hc] at h
          dsimp only at h
          exact hnext h
      | none =>
        rw [hm] at h
        dsimp only at h
        exact hnext h
    · rw [if_neg hl] at h
      exact ih h

/-- C8 (amended): the section-16 strategy and the labelled-line strategy
return only candidates with at least two words and no address/contact
token, but the 1.3-block strategy enforces only one of the two checks:
its inline value passes only the token filter (a one-word name can be
returned) and its following-line value passes only the two-word check
(a line with contact tokens can be returned). -/
theorem c8_vendor_filters :
    (∀ s16 v : String, vendor_p1 s16 = some v →
      2 ≤ wordCount v ∧ contact_token16 v = false) ∧
    (∀ s1 ft v : String, vendor_p2 s1 ft = some v →
      2 ≤ wordCount v ∧ contact_token v = false) ∧
    (∀ s1 v : String, vendor_p3 s1 = some v →
      contact_token v = false ∨ 2 ≤ wordCount v) := by
  refine ⟨vendor_p1_filters, vendor_p2_filters, fun s1 v h => ?_⟩
  rw [vendor_p3] at h
  cases hb : vendor_block_13 s1 with
  | some block =>
    rw [hb] at h
    exact p3Loop_weak _ _ h
  | none => rw [hb] at h; exact absurd h (by simp)

/-- C8 counterexample: the 1.3-block strategy returns the one-word
vendor "Acme", violating the claimed two-word minimum. -/
theorem c8_counterexample :
    extract_vendor_improved ("Supplier: Acme\n1.3 Supplier\nSupplier: Acme") ("") ("") =
      some ("Acme") ∧
    wordCount ("Acme") = 1 := by decide

/-- C8 witness for the amended per-strategy theorem. -/
theorem c8_witness : 2 ≤ wordCount ("Acme Corp") ∧ contact_token16 ("Acme Corp") = false :=
  c8_vendor_filters.1 ("Prepared by Acme Corp") ("Acme Corp") (by decide)

/-! ## C1 -/

theorem resolveLoop_append (today : PDate) (xs ys : List (Option String)) :
    resolveLoop today (xs ++ ys) =
      (match resolveLoop today xs with
       | some v => some v
       | none => resolveLoop today ys) := by
  induction xs with
  | nil => simp [resolveLoop]
  | cons c rest ih =>
    cases c with
    | none =>
      rw [List.cons_append, resolveLoop, ih]
      rw [show resolveLoop today (none :: rest) = resolveLoop today rest from by
        rw [resolveLoop]]
    | some raw =>
      rw [List.cons_append, resolveLoop]
      by_cases hr : raw = ""
      · rw [if_pos hr, ih]
        rw [show resolveLoop today (some raw :: rest) = resolveLoop today rest from by
          rw [resolveLoop, if_pos hr]]
      · rw [if_neg hr]
        rw [show resolveLoop today (some raw :: rest) =
            (match tryCandidate today raw with
             | some iso => some iso
             | none => resolveLoop today rest) from by
          rw [resolveLoop, if_neg hr]]
        cases tryCandidate today raw with
        | some iso => rfl
        | none => exact ih

theorem stage23_one (today : PDate) (o : Option String) :
    (match o with
     | some raw => if raw = "" then none else tryCandidate today raw
     | none => none) = resolveLoop today [o] := by
  cases o with
  | none => rw [resolveLoop, resolveLoop]
  | some raw =>
    rw [resolveLoop]
    dsimp only
    by_cases hr : raw = ""
    · rw [if_pos hr, if_pos hr, resolveLoop]
    · rw [if_neg hr, if_neg hr]
      cases tryCandidate today raw with
      | some iso => rfl
      | none => rw [resolveLoop]

theorem stage23_eq (today : PDate) (a b : Option String) :
    (match (match a with
            | some raw => if raw = "" then none else tryCandidate today raw
            | none => none) with
     | some iso => some iso
     | none =>
       match b with
       | some raw => if raw = "" then none else tryCandidate today raw
       | none => none) = resolveLoop today [a, b] := by
  rw [show ([a, b] : List (Option String)) = [a] ++ [b] from rfl, resolveLoop_append,
    ← stage23_one today a, ← stage23_one today b]

/-- C1 (amended): for every section-16 body, full text and parse time
the resolver returns the first accepted candidate of its priority list
(the five labels in section 16 then the whole text, then the near-label
window anywhere, then the first unlabelled date-shaped token of section
16), where every stage — including the very last fallback — rejects a
candidate whose normalised value parses as an ISO date more than 60
days after the parse time (null when no candidate remains), and a
candidate whose normalised value does not parse as an ISO date is
returned as-is. -/
theorem c1_uniform_sixty_day_bound (today : PDate) (sect16 full : String) :
    resolve_issue_date today sect16 full = resolve_issue_date_spec today sect16 full := by
  rw [resolve_issue_date, resolve_issue_date_spec, resolveLoop_append]
  cases resolveLoop today (labeledDateCandidates sect16 full) with
  | some iso => rfl
  | none =>
    dsimp only
    exact stage23_eq today (nearest_label_date_anywhere full) (generic_date_first sect16)

/-- C1 counterexample: a section 16 whose only date-shaped token lies
120 days in the future of the parse time: the fallback candidate exists
("2026-05-01" against a parse date of 2026-01-01), yet the resolver
returns null — the final fallback is not returned regardless of the
60-day bound. -/
theorem c1_counterexample :
    generic_date_first ("Reference: 2026-05-01") = some ("2026-05-01") ∧
    resolve_issue_date ⟨2026, 1, 1⟩ ("Reference: 2026-05-01") ("") = none := by decide
